import Mathlib

/-!
Verification development for the geo-bucket resolution core of the
Expert-Listing service.

Modelling conventions, used throughout:

* Python strings are modelled as `List Char`, interpreted over the ASCII
  fragment: the Python semantics of `str.lower`, `str.strip`, the regex
  classes `\s`, `\w`, `\d`, `\b` and `unicodedata` NFD normalisation agree
  with the model on ASCII text.  All concrete inputs appearing in theorems
  are ASCII.
* Python floats are modelled as `ℚ`.  Every numeric fact proved here
  (exact equalities with 0 and 1, strict inequalities between clearly
  separated rationals) is robust under this identification.
* The persistence collaborator (PostgreSQL via SQLModel) is modelled as an
  in-memory list store: row order is list order, `first()` takes the list
  head, `one_or_none()` raises on more than one match, and the unique key
  on `GeoBucket.h3_index` rejects a duplicate insert.
* External pure collaborators that are not part of the repository (the h3
  cell index, PostGIS area computation, the pg_trgm `similarity` SQL
  function) are taken as function parameters of the definitions that call
  them; theorems are proved for every choice of these parameters unless
  stated otherwise, and witness instantiations use simple concrete
  stand-ins.
* Recursions that are not structural use an explicit fuel argument that is
  always sufficient, so that every definition evaluates by kernel
  reduction.
-/

set_option maxRecDepth 10000

namespace ExpertListing

/-! ## Python character classes (ASCII fragment)

These mirror the character classes used by `location_utils.py`: the regex
class `\s` (Python whitespace), `\w` (word characters, as used by the
word-boundary assertion `\b`), `\d`, and `str.lower`. -/

/-- Python regex class `\s` on ASCII: space, tab, newline, carriage
return, vertical tab, form feed. -/
def isPyWs (c : Char) : Bool :=
  c == ' ' || c == '\t' || c == '\n' || c == '\r' ||
    c == Char.ofNat 11 || c == Char.ofNat 12

/-- Python regex class `\w` on ASCII: letters, digits, underscore. -/
def isWordChar (c : Char) : Bool :=
  c.isAlpha || c.isDigit || c == '_'

/-- Python `str.lower` on ASCII. -/
def pyLower (c : Char) : Char :=
  if c.toNat ≥ 65 && c.toNat ≤ 90 then Char.ofNat (c.toNat + 32) else c

/-- Unicode combining marks of the standard diacritical block (category
Mn) as they occur in NFD decompositions of Latin text; `_remove_accents`
drops exactly the Mn characters.  ASCII text contains none. -/
def isCombiningMark (c : Char) : Bool :=
  768 ≤ c.toNat && c.toNat ≤ 879

/-! ## location_utils.py: normalize -/

namespace LocationUtils

/-- Drop the leading and trailing runs of characters satisfying `p`
(the common shape of `str.strip` and of the edge-trimming regex). -/
def trimBoth (p : Char → Bool) (l : List Char) : List Char :=
  ((l.dropWhile p).reverse.dropWhile p).reverse

/-- `str.strip`: drop leading and trailing Python whitespace. -/
def pyStrip (l : List Char) : List Char := trimBoth isPyWs l

/-- `re.sub(r"\s+", " ", s)`: every maximal run of whitespace becomes a
single space.  The flag records whether the previous character consumed
was whitespace. -/
def collapseWsGo : Bool → List Char → List Char
  | _, [] => []
  | true, c :: rest =>
    if isPyWs c then collapseWsGo true rest
    else c :: collapseWsGo false rest
  | false, c :: rest =>
    if isPyWs c then ' ' :: collapseWsGo true rest
    else c :: collapseWsGo false rest

def collapseWs (l : List Char) : List Char := collapseWsGo false l

/-- The double quote character. -/
def dquote : Char := Char.ofNat 34

/-- The single quote character. -/
def squote : Char := Char.ofNat 39

/-- `re.sub(r'["\']', "", s)`: remove double and single quotes. -/
def removeQuotes (l : List Char) : List Char :=
  l.filter (fun c => !(c == dquote || c == squote))

/-- `_remove_accents`: NFD-decompose and drop category-Mn characters.  On
text that is already decomposed (in particular all ASCII text) NFD is the
identity, so the function reduces to dropping combining marks. -/
def removeAccents (l : List Char) : List Char :=
  l.filter (fun c => !isCombiningMark c)

/-- The separator set of `LocationUtils.SEPARATORS`, in one fixed
iteration order.  The source iterates a Python `set`, whose order is
unspecified; all theorems below that involve separators are insensitive
to this order. -/
def SEPARATORS : List Char := [',', '-', '/', '\\', '|', ';']

/-- `str.split(sep)` (single-character separator, Python semantics:
empty segments are kept). -/
def splitOnGo (sep : Char) : List Char → List Char → List (List Char)
  | acc, [] => [acc.reverse]
  | acc, c :: rest =>
    if c == sep then acc.reverse :: splitOnGo sep [] rest
    else splitOnGo sep (c :: acc) rest

def splitOn (sep : Char) (l : List Char) : List (List Char) :=
  splitOnGo sep [] l

/-- `_extract_primary_location`: for the first separator present in the
string, split on it, strip the segments, drop empty ones, and return the
first remaining segment; if a separator is present but every segment is
blank, try the next separator; with no separator present return the
string unchanged. -/
def extractPrimaryGo (l : List Char) : List Char → List Char
  | [] => l
  | sep :: seps =>
    if l.contains sep then
      match ((splitOn sep l).map pyStrip).filter (fun p => !p.isEmpty) with
      | [] => extractPrimaryGo l seps
      | p :: _ => p
    else extractPrimaryGo l seps

def extractPrimary (l : List Char) : List Char :=
  extractPrimaryGo l SEPARATORS

/-! ### Word-boundary substitution

`_remove_location_patterns` applies four `re.sub(pattern, "", s)` passes.
Each pattern is an alternation of `\b`-delimited tokens, so a match at a
position requires: the previous character (if any) is not a word
character, the token matches there, and the character following the match
(if any) is not a word character.  `scanSub` is the generic scanner: it
walks the string once, keeping the word-ness of the previous original
character, and drops the characters of each match (`re.sub` scans the
original string left to right and resumes after each match). -/

/-- One left-to-right `re.sub(…, "", s)` pass.  `matchLen l` returns the
length of the pattern match starting at `l` (boundary on the right
included), or `none`; the left boundary is checked by the scanner.
`skip` counts characters of a current match still to drop. -/
def scanSub (matchLen : List Char → Option Nat) : Bool → Nat → List Char → List Char
  | _, _, [] => []
  | _, Nat.succ k, c :: rest => scanSub matchLen (isWordChar c) k rest
  | prevWord, 0, c :: rest =>
    if prevWord then c :: scanSub matchLen (isWordChar c) 0 rest
    else
      match matchLen (c :: rest) with
      | some (Nat.succ m) => scanSub matchLen (isWordChar c) m rest
      | _ => c :: scanSub matchLen (isWordChar c) 0 rest

/-- Case-insensitive literal token match (the patterns carry
`re.IGNORECASE`; the token lists are lowercase). -/
def tokenAt : List Char → List Char → Bool
  | [], _ => true
  | _ :: _, [] => false
  | t :: ts, c :: cs => pyLower c == t && tokenAt ts cs

/-- Right word boundary after a match: end of string or a non-word
character. -/
def boundaryAfter : List Char → Bool
  | [] => true
  | c :: _ => !isWordChar c

/-- Match one `\b`-delimited literal word of `words` (first alternative
wins, as in a regex alternation) at the head of `l`. -/
def wordMatchLen (words : List (List Char)) (l : List Char) : Option Nat :=
  match words with
  | [] => none
  | w :: ws =>
    if tokenAt w l && boundaryAfter (l.drop w.length) then some w.length
    else wordMatchLen ws l

/-- Count the leading characters satisfying `p`. -/
def countWhile (p : Char → Bool) : List Char → Nat
  | [] => 0
  | c :: rest => if p c then countWhile p rest + 1 else 0

/-- Match `phase\s*\d+` or `ext\s*\d+` (the second location pattern) at
the head of `l`, returning the match length.  Greedy `\s*`/`\d+` with a
required right boundary is equivalent to maximal munch here, since giving
back characters can only recreate a word-word junction. -/
def phaseNumMatchLen (l : List Char) : Option Nat :=
  let tryKw : List Char → Option Nat := fun kw =>
    if tokenAt kw l then
      let rest := l.drop kw.length
      let wsN := countWhile isPyWs rest
      let rest2 := rest.drop wsN
      let dN := countWhile Char.isDigit rest2
      if dN == 0 then none
      else if boundaryAfter (rest2.drop dN) then some (kw.length + wsN + dN)
      else none
    else none
  match tryKw ('p' :: ['h', 'a', 's', 'e']) with
  | some n => some n
  | none => tryKw ['e', 'x', 't']

/-- Match `\d+` with a right boundary (for `\b\d+\b`). -/
def bareNumberMatchLen (l : List Char) : Option Nat :=
  let dN := countWhile Char.isDigit l
  if dN == 0 then none
  else if boundaryAfter (l.drop dN) then some dN
  else none

/-- The token list of the first location pattern, in source order. -/
def P1_WORDS : List (List Char) :=
  [['a', 'r', 'e', 'a'], ['e', 's', 't', 'a', 't', 'e'],
   ['p', 'h', 'a', 's', 'e'],
   ['e', 'x', 't', 'e', 'n', 's', 'i', 'o', 'n'], ['e', 'x', 't'],
   ['s', 't', 'r', 'e', 'e', 't'], ['s', 't'],
   ['r', 'o', 'a', 'd'], ['r', 'd'],
   ['a', 'v', 'e', 'n', 'u', 'e'], ['a', 'v', 'e'],
   ['c', 'l', 'o', 's', 'e'],
   ['c', 'r', 'e', 's', 'c', 'e', 'n', 't'], ['c', 'r', 'e', 's']]

/-- The `\blga\b` pattern token. -/
def LGA_WORD : List (List Char) := [['l', 'g', 'a']]

/-- `_remove_location_patterns`: the three pattern passes, the bare
number pass, then `str.strip`. -/
def removeLocationPatterns (l : List Char) : List Char :=
  let l1 := scanSub (wordMatchLen P1_WORDS) false 0 l
  let l2 := scanSub phaseNumMatchLen false 0 l1
  let l3 := scanSub (wordMatchLen LGA_WORD) false 0 l2
  let l4 := scanSub bareNumberMatchLen false 0 l3
  pyStrip l4

/-- The character class `[,\-\s]` of the final edge trim. -/
def isEdgeChar (c : Char) : Bool :=
  c == ',' || c == '-' || isPyWs c

/-- No two adjacent whitespace characters (used to state when a second
`normalize` pass is the identity: token removal can leave repeated
internal spaces, which this predicate rules out). -/
def singleSpaced : List Char → Bool
  | c1 :: c2 :: rest => !(isPyWs c1 && isPyWs c2) && singleSpaced (c2 :: rest)
  | _ => true

/-- `re.sub(r"^[,\-\s]+|[,\-\s]+$", "", s)`: remove a leading and a
trailing run of commas, hyphens and whitespace. -/
def trimEdges (l : List Char) : List Char := trimBoth isEdgeChar l

/-- `LocationUtils.normalize`, stage for stage as in the source:
lowercase and strip, remove accents, collapse whitespace, remove quotes,
extract the primary segment, remove location patterns, trim edge
separators, strip. -/
def normalize (l : List Char) : List Char :=
  if l.isEmpty then []
  else
    let n1 := pyStrip (l.map pyLower)
    let n2 := removeAccents n1
    let n3 := collapseWs n2
    let n4 := removeQuotes n3
    let p1 := extractPrimary n4
    let p2 := removeLocationPatterns p1
    let p3 := trimEdges p2
    pyStrip p3

/-- String-level wrapper. -/
def normalizeS (s : String) : String := ⟨normalize s.data⟩

/-! ### difflib.SequenceMatcher

`similarity` computes
`SequenceMatcher(None, norm1, norm2).ratio()`.  The model implements the
documented algorithm: `find_longest_match` returns the longest matching
block, ties broken by the earliest start in `a`, then the earliest start
in `b`; `get_matching_blocks` recurses on both sides of that block;
`ratio` is twice the total matched length over the total length.  The
autojunk heuristic (which only affects second strings of length ≥ 200) is
not modelled; no concrete input here reaches that length. -/

/-- Length of the common prefix of two strings. -/
def cpl : List Char → List Char → Nat
  | a :: as, b :: bs => if a == b then cpl as bs + 1 else 0
  | _, _ => 0

/-- `find_longest_match` over whole strings: the longest `(i, j, k)` with
`a[i:i+k] == b[j:j+k]`, earliest `i`, then earliest `j`; `(0, 0, 0)` when
there is no nonempty match. -/
def flm (a b : List Char) : Nat × Nat × Nat :=
  (List.range a.length).foldl
    (fun best i =>
      (List.range b.length).foldl
        (fun best j =>
          let k := cpl (a.drop i) (b.drop j)
          if best.2.2 < k then (i, j, k) else best)
        best)
    (0, 0, 0)

/-- Total size of the matching blocks (the recursion of
`get_matching_blocks`), with fuel; `a.length + b.length + 1` fuel always
suffices since each recursive call strictly shrinks the total length. -/
def matchSumF : Nat → List Char → List Char → Nat
  | 0, _, _ => 0
  | fuel + 1, a, b =>
    let r := flm a b
    if r.2.2 == 0 then 0
    else
      matchSumF fuel (a.take r.1) (b.take r.2.1) + r.2.2 +
        matchSumF fuel (a.drop (r.1 + r.2.2)) (b.drop (r.2.1 + r.2.2))

def matchSum (a b : List Char) : Nat :=
  matchSumF (a.length + b.length + 1) a b

/-- `SequenceMatcher.ratio()`: `2*M/T`, and 1 when both strings are
empty. -/
def smRatio (a b : List Char) : ℚ :=
  if a.length + b.length == 0 then 1
  else (2 * matchSum a b : ℚ) / ((a.length + b.length : Nat) : ℚ)

/-! ### similarity -/

/-- Python substring containment `needle in hay`. -/
def isSubstring : List Char → List Char → Bool
  | n, h =>
    (n.isPrefixOf h) ||
      match h with
      | [] => false
      | _ :: t => isSubstring n t

/-- `str.split()`: maximal runs of non-whitespace. -/
def splitWsGo : List Char → List Char → List (List Char)
  | acc, [] => if acc.isEmpty then [] else [acc.reverse]
  | acc, c :: rest =>
    if isPyWs c then
      if acc.isEmpty then splitWsGo [] rest
      else acc.reverse :: splitWsGo [] rest
    else splitWsGo (c :: acc) rest

def splitWs (l : List Char) : List (List Char) := splitWsGo [] l

/-- Python `max` on two floats (kernel-reducible form). -/
def pyMax (a b : ℚ) : ℚ := if a < b then b else a

/-- Python `min` on two ints (kernel-reducible form). -/
def pyMinNat (a b : Nat) : Nat := if b < a then b else a

/-- A Python `set` of tokens, modelled as the duplicate-free list of
first occurrences (only sizes and membership are consumed). -/
def tokenSet (l : List (List Char)) : List (List Char) :=
  l.foldl (fun acc t => if acc.contains t then acc else acc ++ [t]) []

/-- Size of the intersection of two token sets. -/
def interCard (t1 t2 : List (List Char)) : Nat :=
  (t1.filter (fun t => t2.contains t)).length

/-- `LocationUtils.similarity`: normalize both inputs; 0 if either
normal form is empty; otherwise the `SequenceMatcher` ratio, raised to at
least 0.9 when one normal form contains the other, and raised to at least
`0.95 * token-overlap` where overlap is intersection size over the
smaller token-set size. -/
def similarity (loc1 loc2 : List Char) : ℚ :=
  let norm1 := normalize loc1
  let norm2 := normalize loc2
  if norm1.isEmpty || norm2.isEmpty then 0
  else
    let base := smRatio norm1 norm2
    let base :=
      if isSubstring norm1 norm2 || isSubstring norm2 norm1 then
        pyMax base (9 / 10)
      else base
    let tokens1 := tokenSet (splitWs norm1)
    let tokens2 := tokenSet (splitWs norm2)
    if !tokens1.isEmpty && !tokens2.isEmpty then
      let overlap : ℚ :=
        (interCard tokens1 tokens2 : ℚ) /
          ((pyMinNat tokens1.length tokens2.length : Nat) : ℚ)
      pyMax base (overlap * (19 / 20))
    else base

/-- String-level wrapper. -/
def similarityS (s1 s2 : String) : ℚ := similarity s1.data s2.data

end LocationUtils

/-! ## Data model

`GeoBucket` and `Property` mirror the SQLModel tables
(`geo_buckets/models/geo_bucket.py`, `properties/models/property.py`).
Geometry columns are points `(lng, lat)` and polygons in `ℚ`; the
database-managed timestamp columns of `TimestampMixin` are outside the
model.  Surrogate ids (an integer sequence for buckets, a ULID for
properties) are modelled as a `Nat` drawn from a per-table counter. -/

/-- A point geometry, `(lng, lat)` as built by `Point(lng, lat)`. -/
abbrev GeoPoint := ℚ × ℚ

structure GeoBucket where
  id : Nat
  h3_index : Int
  h3_resolution : Nat
  parent_h3 : Option Int
  canonical_name : String
  canonical_name_normalized : String
  center_point : Option GeoPoint
  hexagon_boundary : Option (List GeoPoint)
  property_count : Nat
deriving DecidableEq, Repr

structure Property where
  id : Nat
  title : String
  location_name : String
  location_name_normalized : String
  coordinates : GeoPoint
  h3_index_r8 : Int
  h3_index_r9 : Int
  attributes : List (String × String)
  geo_bucket_id : Option Nat
deriving DecidableEq, Repr

/-- The persistent state: the two tables plus the id sequences. -/
structure Store where
  buckets : List GeoBucket
  properties : List Property
  nextBucketId : Nat
  nextPropertyId : Nat
deriving DecidableEq, Repr

def Store.empty : Store := ⟨[], [], 1, 1⟩

/-- An exception as observed by a caller: the message of the raised
exception together with the messages of its `from`-cause chain (outermost
cause first).  The repository raises `DatabaseException`, the services
raise `AppException`; both carry only a message. -/
structure PyExc where
  message : String
  causeMessages : List String
deriving DecidableEq, Repr

/-! ## database/repository.py: lookup and create semantics -/

/-- `find_one_by_and_none` on the bucket table, filtering by one field:
`one_or_none()` returns the unique match, `none` on no match, and raises
(wrapped into `DatabaseException("Failed to find record")`) on more than
one match. -/
def findOneBy {α : Type} [DecidableEq α] (rows : List α) (p : α → Bool) :
    Except PyExc (Option α) :=
  match rows.filter p with
  | [] => .ok none
  | [r] => .ok (some r)
  | _ => .error ⟨"Failed to find record", ["MultipleResultsFound"]⟩

/-! ## geo_bucket_service.py -/

namespace GeoBucketService

/-- Message of the `AppException` raised when `find_or_create_bucket`
catches a `DatabaseException`. -/
def msgFindOrCreateFailed : String := "Failed to find or create geo bucket"

/-- Message of the `DatabaseException` raised by the repository when an
insert fails (in particular on the unique-key violation on `h3_index`). -/
def msgCreateFailed : String := "Failed to create record"

/-- Message of the inner `AppException` raised by
`increment_property_count` when the bucket is absent. -/
def msgBucketNotFound : String :=
  "GeoBucket not found for incrementing property count."

/-- Message of the `AppException` raised when `increment_property_count`
catches a `DatabaseException`. -/
def msgIncrementDbFailed : String := "Failed to increment property count"

/-- Message of the `AppException` that the generic
`except Exception` handler of `increment_property_count` raises; the
inner not-found `AppException` is itself caught by this handler and
becomes the cause. -/
def msgIncrementUnexpected : String :=
  "An unexpected error occurred while incrementing the property count."

variable (gridDisk : Int → List Int)
variable (h3ToGeometry : Int → GeoPoint × List GeoPoint)
variable (pgSimilarity : String → String → ℚ)

/--
`GeoBucketService.find_or_create_bucket`.

* `gridDisk` models `h3.grid_disk` (`get_neighbor_h3s`, k = 1: the seven
  cells including the centre), `h3ToGeometry` models
  `H3Utils.h3_to_geometry`, and `pgSimilarity` models the pg_trgm SQL
  function `similarity` used inside the fuzzy query.
* `concurrentInsert` models a bucket committed by a concurrent
  transaction between the (missed) lookups and the insert; it is `none`
  in a single-writer run.  The unique key on `h3_index` makes the insert
  fail when any visible bucket already carries the same index; the
  repository wraps that failure into
  `DatabaseException("Failed to create record")`, and the service's
  `except DatabaseException` handler re-raises
  `AppException("Failed to find or create geo bucket")` — there is no
  retry or re-fetch on conflict in the source.
-/
def find_or_create_bucket (store : Store) (concurrentInsert : Option GeoBucket)
    (h3_index_r8 : Int) (location_name normalized_name : String)
    (parent_h3 : Int) : Except PyExc (GeoBucket × Store) :=
  match findOneBy store.buckets (fun b => b.h3_index == h3_index_r8) with
  | .error db => .error ⟨msgFindOrCreateFailed, db.message :: db.causeMessages⟩
  | .ok (some bucket) => .ok (bucket, store)
  | .ok none =>
    let neighbors := gridDisk h3_index_r8
    match store.buckets.find? (fun b =>
        neighbors.contains b.h3_index &&
          decide (pgSimilarity b.canonical_name_normalized normalized_name > 7 / 10)) with
    | some bucket => .ok (bucket, store)
    | none =>
      let geo := h3ToGeometry h3_index_r8
      if (store.buckets ++ concurrentInsert.toList).any
          (fun b => b.h3_index == h3_index_r8) then
        .error ⟨msgFindOrCreateFailed, [msgCreateFailed]⟩
      else
        let nb : GeoBucket :=
          { id := store.nextBucketId
            h3_index := h3_index_r8
            h3_resolution := 8
            parent_h3 := some parent_h3
            canonical_name := location_name
            canonical_name_normalized := normalized_name
            center_point := some geo.1
            hexagon_boundary := some geo.2
            property_count := 0 }
        .ok (nb, { store with
                    buckets := store.buckets ++ [nb]
                    nextBucketId := store.nextBucketId + 1 })

/--
`GeoBucketService.increment_property_count`: load the bucket by id
(`one_or_none`), raise an `AppException` when absent (which the generic
`except Exception` handler of the same method catches and wraps into the
"unexpected error" `AppException`), otherwise add 1 to `property_count`
and persist that row.
-/
def increment_property_count (store : Store) (geo_bucket_id : Nat) :
    Except PyExc Store :=
  match findOneBy store.buckets (fun b => b.id == geo_bucket_id) with
  | .error db => .error ⟨msgIncrementDbFailed, db.message :: db.causeMessages⟩
  | .ok none => .error ⟨msgIncrementUnexpected, [msgBucketNotFound]⟩
  | .ok (some _) =>
    .ok { store with
          buckets := store.buckets.map (fun b =>
            if b.id == geo_bucket_id then
              { b with property_count := b.property_count + 1 }
            else b) }

/-! ### Concurrent increments

`increment_property_count` is a read-modify-write: it first loads the
bucket row into the session, then writes the loaded object back with
`property_count` increased from the *loaded* value.  Under two concurrent
sessions the two phases interleave on the shared committed table.  The
model below makes the two phases explicit and runs two clients under an
arbitrary schedule; each phase is atomic against the shared table, which
is the most favourable assumption for the code. -/

/-- The per-client state of one in-flight `increment_property_count`
call: about to load, about to write back the loaded snapshot, or done. -/
inductive RMWPhase where
  | load
  | save (snapshot : GeoBucket)
  | done
deriving DecidableEq, Repr

/-- One phase of `increment_property_count` against the shared bucket
table: `load` copies the row into the session; `save` writes the copied
row back with `property_count := snapshot.property_count + 1`. -/
def rmwStep (bs : List GeoBucket) (geo_bucket_id : Nat) :
    RMWPhase → List GeoBucket × RMWPhase
  | .load =>
    match bs.find? (fun b => b.id == geo_bucket_id) with
    | some b => (bs, .save b)
    | none => (bs, .done)
  | .save snap =>
    (bs.map (fun b =>
        if b.id == geo_bucket_id then
          { snap with property_count := snap.property_count + 1 }
        else b),
      .done)
  | .done => (bs, .done)

/-- Run two concurrent `increment_property_count` calls on the same
bucket under a schedule: `false` steps the first client, `true` the
second. -/
def runTwoIncrements (geo_bucket_id : Nat) :
    List Bool → List GeoBucket → RMWPhase → RMWPhase → List GeoBucket
  | [], bs, _, _ => bs
  | pick :: rest, bs, pa, pb =>
    if pick then
      let r := rmwStep bs geo_bucket_id pb
      runTwoIncrements geo_bucket_id rest r.1 pa r.2
    else
      let r := rmwStep bs geo_bucket_id pa
      runTwoIncrements geo_bucket_id rest r.1 r.2 pb

end GeoBucketService

/-! ## database/decorators/transactional.py and database/transaction.py

`@transactional` opens the outermost transaction scope when the ambient
nesting level is 0: the decorated body runs with the level raised, inner
`save_changes` calls flush instead of committing, and on exit the
outermost scope commits once on success and rolls back on an exception.
The model runs a body on a session initialised from the committed state;
commit installs the session state, rollback discards it. -/

/-- Result of running a decorated service call: the outcome, the
committed state after the call, and how many commits and rollbacks the
outermost scope performed. -/
structure TxOutcome (α : Type) where
  result : Except PyExc α
  db : Store
  commits : Nat
  rollbacks : Nat

/-- The `@transactional` wrapper at nesting level 0 (the only level at
which `Transaction.__aexit__` commits or rolls back). -/
def transactional {α : Type} (body : Store → Except PyExc (α × Store))
    (db : Store) : TxOutcome α :=
  match body db with
  | .ok (a, s) => ⟨.ok a, s, 1, 0⟩
  | .error e => ⟨.error e, db, 0, 1⟩

/-! ## shared/utils/h3_utils.py and the request schema -/

namespace H3Utils

/-- The three cell indexes computed per coordinate. -/
structure H3Indexes where
  h3_r7 : Int
  h3_r8 : Int
  h3_r9 : Int
deriving DecidableEq, Repr

variable (latlngToCell : ℚ → ℚ → Nat → Int)

/-- `H3Utils.calculate_h3_indexes`: three calls to `h3.latlng_to_cell`
at resolutions 7, 8, 9.  `latlngToCell` models the h3 library function,
which is total on finite coordinates (out-of-range angles are normalised,
not rejected); the repository code performs no range validation here. -/
def calculate_h3_indexes (lat lng : ℚ) : H3Indexes :=
  { h3_r7 := latlngToCell lat lng 7
    h3_r8 := latlngToCell lat lng 8
    h3_r9 := latlngToCell lat lng 9 }

/-- The `indexAt` of the spec, written from its words for comparison
with `calculate_h3_indexes` (the code): deterministic and total on
lat in [-90, 90], lng in [-180, 180], failing with
`InvalidCoordinateError` outside that domain. -/
def indexAt_spec (lat lng : ℚ) : Except PyExc H3Indexes :=
  if lat < -90 ∨ lat > 90 ∨ lng < -180 ∨ lng > 180 then
    .error ⟨"InvalidCoordinateError", []⟩
  else .ok (calculate_h3_indexes latlngToCell lat lng)

end H3Utils

/-- The request payload of `PropertyCreateRequest`
(`properties/schemas/property.py`), after validation. -/
structure PropertyCreateRequest where
  title : String
  location_name : String
  lat : ℚ
  lng : ℚ
  attributes : List (String × String)
deriving DecidableEq, Repr

/-- Validation of `PropertyCreateRequest`: `title` and `location_name`
are whitespace-stripped and must then have length in [1, 2000]; `lat` is
a pydantic `Latitude` (range [-90, 90]) and `lng` a `Longitude` (range
[-180, 180]).  Out-of-range coordinates are rejected here, before any
indexing code runs. -/
def validateCreateRequest (raw : PropertyCreateRequest) :
    Except PyExc PropertyCreateRequest :=
  let title := ⟨LocationUtils.pyStrip raw.title.data⟩
  let location_name := ⟨LocationUtils.pyStrip raw.location_name.data⟩
  if title.length < 1 || title.length > 2000 then
    .error ⟨"RequestValidationError", ["title"]⟩
  else if location_name.length < 1 || location_name.length > 2000 then
    .error ⟨"RequestValidationError", ["location_name"]⟩
  else if raw.lat < -90 || raw.lat > 90 then
    .error ⟨"RequestValidationError", ["lat"]⟩
  else if raw.lng < -180 || raw.lng > 180 then
    .error ⟨"RequestValidationError", ["lng"]⟩
  else
    .ok { raw with title := title, location_name := location_name }

/-! ## properties/services/property_service.py -/

namespace PropertyService

open GeoBucketService H3Utils

/-- Message of the `AppException` raised when the property service
catches a `DatabaseException`. -/
def msgCreatePropertyFailed : String := "Failed to create property listing."

variable (gridDisk : Int → List Int)
variable (h3ToGeometry : Int → GeoPoint × List GeoPoint)
variable (pgSimilarity : String → String → ℚ)
variable (latlngToCell : ℚ → ℚ → Nat → Int)

/-- The body of `PropertyService.create_property` (inside the
`@transactional` wrapper and the try block): index the coordinate,
normalize the name, resolve the bucket, persist the listing, increment
the bucket counter.  `AppException`s from the inner services propagate
unchanged (`except (AppException, RequestValidationError): raise`). -/
def create_property_body (payload : PropertyCreateRequest) (s : Store) :
    Except PyExc (Property × Store) :=
  let idx := calculate_h3_indexes latlngToCell payload.lat payload.lng
  let normalized : String := LocationUtils.normalizeS payload.location_name
  let point : GeoPoint := (payload.lng, payload.lat)
  match find_or_create_bucket gridDisk h3ToGeometry pgSimilarity s none
      idx.h3_r8 payload.location_name normalized idx.h3_r7 with
  | .error e => .error e
  | .ok (bucket, s1) =>
    let prop : Property :=
      { id := s1.nextPropertyId
        title := payload.title
        location_name := payload.location_name
        location_name_normalized := normalized
        coordinates := point
        h3_index_r8 := idx.h3_r8
        h3_index_r9 := idx.h3_r9
        attributes := payload.attributes
        geo_bucket_id := some bucket.id }
    let s2 : Store :=
      { s1 with
        properties := s1.properties ++ [prop]
        nextPropertyId := s1.nextPropertyId + 1 }
    match increment_property_count s2 bucket.id with
    | .error e => .error e
    | .ok s3 => .ok (prop, s3)

/-- `PropertyService.create_property`: the body under `@transactional`. -/
def create_property (payload : PropertyCreateRequest) (db : Store) :
    TxOutcome Property :=
  transactional
    (create_property_body gridDisk h3ToGeometry pgSimilarity latlngToCell payload)
    db

/-- The body of `PropertyService.create_property_if_not_exists`: look the
title up first (`find_one_by_and_none(title=...)`); when a property with
that title exists return it immediately, otherwise run the same steps as
`create_property`. -/
def create_property_if_not_exists_body (payload : PropertyCreateRequest)
    (s : Store) : Except PyExc (Property × Store) :=
  match findOneBy s.properties (fun p => p.title == payload.title) with
  | .error db => .error ⟨msgCreatePropertyFailed, db.message :: db.causeMessages⟩
  | .ok (some existing) => .ok (existing, s)
  | .ok none =>
    create_property_body gridDisk h3ToGeometry pgSimilarity latlngToCell payload s

/-- `PropertyService.create_property_if_not_exists` under
`@transactional`. -/
def create_property_if_not_exists (payload : PropertyCreateRequest)
    (db : Store) : TxOutcome Property :=
  transactional
    (create_property_if_not_exists_body gridDisk h3ToGeometry pgSimilarity
      latlngToCell payload)
    db

end PropertyService

/-! ## geo_bucket_service.py: get_stats -/

namespace GeoBucketService

/-- `GeoBucketDistribution` (`schemas/geo_bucket.py`). -/
structure GeoBucketDistribution where
  bucket_id : Nat
  h3_index : String
  canonical_name : String
  property_count : Nat
  center_lat : ℚ
  center_lng : ℚ
deriving DecidableEq, Repr

/-- `GeoBucketResolutions` (`schemas/geo_bucket.py`). -/
structure GeoBucketResolutions where
  resolution : Nat
  bucket_count : Nat
  avg_properties_per_bucket : ℚ
  max_properties_in_bucket : Nat
  min_properties_in_bucket : Nat
  total_properties : Nat
deriving DecidableEq, Repr

/-- The `bounding_box` dictionary of `GeoBucketCoverage`. -/
structure BoundingBox where
  min_lat : ℚ
  max_lat : ℚ
  min_lng : ℚ
  max_lng : ℚ
deriving DecidableEq, Repr

/-- `GeoBucketCoverage` (`schemas/geo_bucket.py`). -/
structure GeoBucketCoverage where
  total_area_km2 : Option ℚ
  bounding_box : Option BoundingBox
  unique_locations : Nat
  avg_bucket_density : ℚ
deriving DecidableEq, Repr

/-- `GeoBucketStats` (`schemas/geo_bucket.py`). -/
structure GeoBucketStats where
  total_buckets : Nat
  total_properties : Nat
  top_buckets : List GeoBucketDistribution
  empty_buckets : Nat
  coverage : GeoBucketCoverage
  resolution_stats : List GeoBucketResolutions
deriving DecidableEq, Repr

/-- The center points of the buckets whose geometry is present
(`ST_Extent` skips NULL geometries). -/
def bucketCenters (bs : List GeoBucket) : List GeoPoint :=
  bs.filterMap (fun b => b.center_point)

/-- The `ST_Extent`-derived quadruple
`(min_lng, max_lng, min_lat, max_lat)` that `_get_coverage_stats`
selects, or `none` when no bucket has a center point. -/
def bboxExtent (bs : List GeoBucket) : Option (ℚ × ℚ × ℚ × ℚ) :=
  match bucketCenters bs with
  | [] => none
  | c :: cs =>
    some
      (cs.foldl (fun acc p => min acc p.1) c.1,
        cs.foldl (fun acc p => max acc p.1) c.1,
        cs.foldl (fun acc p => min acc p.2) c.2,
        cs.foldl (fun acc p => max acc p.2) c.2)

/-- Python truthiness of the four extent values inside
`all([bbox.min_lat, bbox.max_lat, bbox.min_lng, bbox.max_lng])`: `None`
and `0.0` are falsy. -/
def extentAllTruthy (e : Option (ℚ × ℚ × ℚ × ℚ)) : Bool :=
  match e with
  | none => false
  | some (minLng, maxLng, minLat, maxLat) =>
    !(minLat == 0) && !(maxLat == 0) && !(minLng == 0) && !(maxLng == 0)

/-- The distinct values of a list, first occurrences kept. -/
def distinctVals {α : Type} [BEq α] (l : List α) : List α :=
  l.foldl (fun acc x => if acc.contains x then acc else acc ++ [x]) []

variable (areaFn : ℚ → ℚ → ℚ → ℚ → ℚ)
variable (cellToLatLng : Int → ℚ × ℚ)
variable (h3ToString : Int → String)

/-- `_get_coverage_stats`: the bounding box and area are set only when
the extent row exists and all four extent values are truthy (so a 0.0
extent value suppresses the bounding box); `unique_locations` counts
distinct normalized names; density is `total_properties / area` when the
area is truthy and positive, else 0.  `areaFn` models the PostGIS
`ST_Area(ST_MakeEnvelope(...))` query of `_calculate_bbox_area`, applied
to (min_lat, max_lat, min_lng, max_lng). -/
def get_coverage_stats (total_properties : Nat) (bs : List GeoBucket) :
    GeoBucketCoverage :=
  let e := bboxExtent bs
  let boxArea : Option BoundingBox × Option ℚ :=
    if extentAllTruthy e then
      match e with
      | some (minLng, maxLng, minLat, maxLat) =>
        (some ⟨minLat, maxLat, minLng, maxLng⟩,
          some (areaFn minLat maxLat minLng maxLng))
      | none => (none, none)
    else (none, none)
  let unique_locations :=
    (distinctVals (bs.map (fun b => b.canonical_name_normalized))).length
  let avg : ℚ :=
    match boxArea.2 with
    | some a => if a > 0 then (total_properties : ℚ) / a else 0
    | none => 0
  { total_area_km2 := boxArea.2
    bounding_box := boxArea.1
    unique_locations := unique_locations
    avg_bucket_density := avg }

/-- Insertion into a list sorted descending by `property_count`
(a deterministic realisation of the `ORDER BY property_count DESC`
row order; ties keep store order). -/
def insertByCountDesc (b : GeoBucket) : List GeoBucket → List GeoBucket
  | [] => [b]
  | x :: xs =>
    if x.property_count ≥ b.property_count then x :: insertByCountDesc b xs
    else b :: x :: xs

def sortByCountDesc (bs : List GeoBucket) : List GeoBucket :=
  bs.foldl (fun acc b => insertByCountDesc b acc) []

/-- `_get_top_buckets`: non-empty buckets, ordered by `property_count`
descending, first 10; the representative point is read from
`center_point` when present (as `(lat, lng) = (shape.y, shape.x)`),
otherwise derived from the cell via `h3.cell_to_latlng`
(`cellToLatLng`). -/
def get_top_buckets (bs : List GeoBucket) : List GeoBucketDistribution :=
  ((sortByCountDesc (bs.filter (fun b => b.property_count > 0))).take 10).map
    (fun b =>
      let latlng :=
        match b.center_point with
        | some p => (p.2, p.1)
        | none => cellToLatLng b.h3_index
      { bucket_id := b.id
        h3_index := h3ToString b.h3_index
        canonical_name := b.canonical_name
        property_count := b.property_count
        center_lat := latlng.1
        center_lng := latlng.2 })

/-- Ascending insertion sort on `Nat` (the `ORDER BY h3_resolution` of
`_get_resolution_stats`). -/
def insertAsc (n : Nat) : List Nat → List Nat
  | [] => [n]
  | x :: xs => if x ≤ n then x :: insertAsc n xs else n :: x :: xs

def sortAsc (l : List Nat) : List Nat :=
  l.foldl (fun acc n => insertAsc n acc) []

/-- `_get_resolution_stats`: per distinct resolution (ascending), the
bucket count and the avg/max/min/sum of `property_count`. -/
def get_resolution_stats (bs : List GeoBucket) : List GeoBucketResolutions :=
  (sortAsc (distinctVals (bs.map (fun b => b.h3_resolution)))).map
    (fun r =>
      let group := bs.filter (fun b => b.h3_resolution == r)
      let counts := group.map (fun b => b.property_count)
      let total : Nat := counts.foldl (fun a b => a + b) 0
      { resolution := r
        bucket_count := group.length
        avg_properties_per_bucket :=
          if group.length == 0 then 0 else (total : ℚ) / (group.length : ℚ)
        max_properties_in_bucket :=
          counts.foldl (fun a b => if a < b then b else a) 0
        min_properties_in_bucket :=
          match counts with
          | [] => 0
          | c :: cs => cs.foldl (fun a b => if b < a then b else a) c
        total_properties := total })

/-- `GeoBucketService.get_stats`: totals, top buckets, coverage and
per-resolution rollups over the current tables.  `total_properties`
counts the property table directly. -/
def get_stats (store : Store) : GeoBucketStats :=
  let total_properties := store.properties.length
  { total_buckets := store.buckets.length
    total_properties := total_properties
    top_buckets := get_top_buckets cellToLatLng h3ToString store.buckets
    empty_buckets :=
      (store.buckets.filter (fun b => b.property_count == 0)).length
    coverage := get_coverage_stats areaFn total_properties store.buckets
    resolution_stats := get_resolution_stats store.buckets }

end GeoBucketService

/-! ## Concrete stand-ins for the external collaborators

Used to instantiate parameterised theorems at concrete inputs. -/

/-- A stand-in `h3.grid_disk` with k = 1: seven cells including the
centre. -/
def gridDisk0 (h : Int) : List Int := [h, h + 1, h + 2, h + 3, h + 4, h + 5, h + 6]

/-- A stand-in `h3_to_geometry`. -/
def h3ToGeometry0 (h : Int) : GeoPoint × List GeoPoint :=
  (((h : ℚ), (h : ℚ)), [((h : ℚ), (h : ℚ))])

/-- A stand-in pg_trgm `similarity`. -/
def pgSimilarity0 (a b : String) : ℚ := if a == b then 1 else 0

/-- A stand-in `h3.latlng_to_cell`. -/
def latlngToCell0 (lat lng : ℚ) (r : Nat) : Int :=
  (r : Int) + (if lat == 0 then 0 else 1) + (if lng == 0 then 0 else 2)

/-- A stand-in PostGIS bounding-box area. -/
def areaFn0 (_minLat _maxLat _minLng _maxLng : ℚ) : ℚ := 1

/-- A stand-in `h3.cell_to_latlng`. -/
def cellToLatLng0 (h : Int) : ℚ × ℚ := ((h : ℚ), (h : ℚ))

/-- A stand-in `h3.int_to_str`. -/
def h3ToString0 (_h : Int) : String := "8a1d2e6c2c87fff"

/-! ## Concrete scenario data -/

/-- A bucket at cell 100 as committed by a concurrent transaction in the
C1 conflict scenario. -/
def bucketAt100 : GeoBucket :=
  { id := 1
    h3_index := 100
    h3_resolution := 8
    parent_h3 := some 10
    canonical_name := "Sangotedo"
    canonical_name_normalized := "sangotedo"
    center_point := some ((36 : ℚ) / 10, (65 : ℚ) / 10)
    hexagon_boundary := some []
    property_count := 0 }

/-- A bucket with `listingCount` 0, the shared row of the C3 race. -/
def bucketRace : GeoBucket :=
  { bucketAt100 with id := 7, h3_index := 200 }

/-- A bucket whose center point lies on the prime meridian
(longitude 0): its extent values make Python `all([...])` falsy. -/
def bucketOnMeridian : GeoBucket :=
  { bucketAt100 with
    id := 3
    h3_index := 300
    center_point := some ((0 : ℚ), (65 : ℚ) / 10)
    property_count := 2 }

/-- A stored property used in the C10 scenario. -/
def storedProperty : Property :=
  { id := 1
    title := "3 Bedroom Flat"
    location_name := "Sangotedo"
    location_name_normalized := "sangotedo"
    coordinates := ((36 : ℚ) / 10, (65 : ℚ) / 10)
    h3_index_r8 := 100
    h3_index_r9 := 1000
    attributes := []
    geo_bucket_id := some 1 }

/-- A creation payload used in the C4 and C10 scenarios.  Its title
matches `storedProperty`, while its coordinates and location name
differ. -/
def payloadLekki : PropertyCreateRequest :=
  { title := "3 Bedroom Flat"
    location_name := "Lekki"
    lat := 5
    lng := 7
    attributes := [] }

/-- The property that `create_property` persists for `payloadLekki` on
the empty store under the stand-in collaborators. -/
def propLekki : Property :=
  { id := 1
    title := "3 Bedroom Flat"
    location_name := "Lekki"
    location_name_normalized := "lekki"
    coordinates := (7, 5)
    h3_index_r8 := 11
    h3_index_r9 := 12
    attributes := []
    geo_bucket_id := some 1 }

/-! ## Shared helper lemmas -/

/-- With pairwise-distinct keys, filtering a list for the key of one of
its members yields exactly that member. -/
theorem filter_key_eq_singleton {α κ : Type} [DecidableEq κ] (key : α → κ)
    (k : κ) :
    ∀ {l : List α}, ((l.map key).Nodup) → ∀ {a : α}, a ∈ l → key a = k →
      l.filter (fun x => key x == k) = [a] := by
  intro l
  induction l with
  | nil => intro _ a ha; exact absurd ha (List.not_mem_nil a)
  | cons b bs ih =>
    intro hU a ha hk
    rw [List.map_cons, List.nodup_cons] at hU
    rcases List.mem_cons.mp ha with rfl | hmem
    · have hfil : bs.filter (fun x => key x == k) = [] := by
        apply List.filter_eq_nil_iff.mpr
        intro x hx
        simp only [beq_iff_eq]
        intro hxk
        exact hU.1 (hk ▸ hxk ▸ List.mem_map_of_mem key hx)
      simp [List.filter_cons, hk, hfil]
    · have hbk : ¬(key b = k) := by
        intro hbk
        have : key a ∈ bs.map key := List.mem_map_of_mem key hmem
        exact hU.1 (by rw [hbk, ← hk] at *; exact this)
      simp only [List.filter_cons, beq_iff_eq, hbk, if_false]
      exact ih hU.2 hmem hk

/-- `findOneBy` on a key filter returns the unique member carrying the
key. -/
theorem findOneBy_key_some {α κ : Type} [DecidableEq α] [DecidableEq κ]
    (key : α → κ) (k : κ) {l : List α} (hU : (l.map key).Nodup) {a : α}
    (ha : a ∈ l) (hk : key a = k) :
    findOneBy l (fun x => key x == k) = .ok (some a) := by
  unfold findOneBy
  rw [filter_key_eq_singleton key k hU ha hk]

/-- `findOneBy` returns `none` exactly on an absent key. -/
theorem findOneBy_key_none {α κ : Type} [DecidableEq α] [DecidableEq κ]
    (key : α → κ) (k : κ) {l : List α} (habs : ∀ a ∈ l, key a ≠ k) :
    findOneBy l (fun x => key x == k) = .ok none := by
  unfold findOneBy
  have : l.filter (fun x => key x == k) = [] := by
    apply List.filter_eq_nil_iff.mpr
    intro x hx
    simpa using habs x hx
  rw [this]

/-! ## Claim C1 -/

/-- Claim C1 (refuted; the code surfaces the conflict): in the resolve
scenario where the exact `cellId` lookup and the fuzzy neighbour lookup
both miss and a concurrent transaction has committed a bucket for the
same cell before the insert, `find_or_create_bucket` does not re-fetch
the now-existing bucket: the unique-key conflict becomes
`DatabaseException("Failed to create record")`, which the service turns
into `AppException("Failed to find or create geo bucket")` raised to the
caller.  Evaluated at a concrete conflict scenario: the empty store at
lookup time, `bucketAt100` committed concurrently, cell 100 incoming. -/
theorem C1_conflict_is_surfaced_not_refetched :
    GeoBucketService.find_or_create_bucket gridDisk0 h3ToGeometry0 pgSimilarity0
        Store.empty (some bucketAt100) 100 "Sangotedo" "sangotedo" 10 =
      .error ⟨GeoBucketService.msgFindOrCreateFailed,
        [GeoBucketService.msgCreateFailed]⟩ := by
  rfl

/-! ## Claim C3 -/

/-- Claim C3 (refuted; the increment loses updates under interleaving):
`increment_property_count` is a read-modify-write without locking or an
atomic increment.  Two concurrent invocations on the same bucket, with
both loads before either write-back, leave `listingCount` at 1 instead
of 2; run sequentially they correctly leave it at 2.  (The phases are
the load and the save of `increment_property_count`, each atomic against
the shared table — the most favourable assumption for the code.) -/
theorem C3_interleaved_increments_lose_an_update :
    GeoBucketService.runTwoIncrements 7 [false, true, false, true]
        [bucketRace] .load .load =
      [{ bucketRace with property_count := 1 }] ∧
    GeoBucketService.runTwoIncrements 7 [false, false, true, true]
        [bucketRace] .load .load =
      [{ bucketRace with property_count := 2 }] := by
  exact ⟨rfl, rfl⟩

/-! ## Claim C6: counterexample -/

/-- Claim C6 is false as stated: `normalize` is not idempotent.  On
"lekki phase 1 lagos" the pattern pass removes "phase" and the bare
number pass removes "1", leaving the repeated internal spaces of
"lekki   lagos"; whitespace is only collapsed at the start of the
pipeline, so a second application collapses them to "lekki lagos". -/
theorem C6_normalize_not_idempotent :
    LocationUtils.normalizeS (LocationUtils.normalizeS "lekki phase 1 lagos") ≠
      LocationUtils.normalizeS "lekki phase 1 lagos" ∧
    LocationUtils.normalizeS "lekki phase 1 lagos" = "lekki   lagos" ∧
    LocationUtils.normalizeS "lekki   lagos" = "lekki lagos" := by
  refine ⟨?_, rfl, rfl⟩
  decide

/-! ## Claim C7: counterexample -/

/-- Claim C7 is false as stated, in both conjuncts.  Self-similarity:
"123" is non-empty but normalizes to the empty string (bare numbers are
stripped), so `similarity("123", "123") = 0`, not 1.  Symmetry: the
`SequenceMatcher` base ratio is order-dependent — on the pair
("ab", "bacb") the matching blocks have total size 2 one way and 1 the
other way, and no substring or token-overlap boost applies, so
`similarity("ab", "bacb") = 2/3` while `similarity("bacb", "ab") = 1/3`. -/
theorem C7_similarity_claim_false :
    (LocationUtils.similarityS "123" "123" ≠ 1 ∧ ("123" : String) ≠ "") ∧
    LocationUtils.similarityS "ab" "bacb" ≠
      LocationUtils.similarityS "bacb" "ab" := by
  refine ⟨⟨?_, by decide⟩, ?_⟩
  · with_unfolding_all decide
  · with_unfolding_all decide

/-! ## Claim C2 -/

/-- A map that fixes every element of a list fixes the list. -/
theorem map_id_of_mem {α : Type} {f : α → α} :
    ∀ {l : List α}, (∀ x ∈ l, f x = x) → l.map f = l := by
  intro l
  induction l with
  | nil => intro _; rfl
  | cons a as ih =>
    intro h
    rw [List.map_cons, h a (List.mem_cons_self a as),
      ih (fun x hx => h x (List.mem_cons_of_mem a hx))]

/-- In a list with pairwise-distinct keys split around `b`, no element of
either side carries the key of `b`. -/
theorem nodup_split_key_ne {α κ : Type} (key : α → κ) {pre post : List α}
    {b : α} (hU : ((pre ++ b :: post).map key).Nodup) :
    (∀ x ∈ pre, key x ≠ key b) ∧ ∀ x ∈ post, key x ≠ key b := by
  rw [List.map_append, List.map_cons] at hU
  rcases List.nodup_append.mp hU with ⟨_, h2, hdis⟩
  constructor
  · intro x hx hk
    exact hdis (List.mem_map_of_mem key hx)
      (by rw [hk]; exact List.mem_cons_self _ _)
  · intro x hx hk
    exact (List.nodup_cons.mp h2).1 (hk ▸ List.mem_map_of_mem key hx)

/-- Claim C2: with pairwise-distinct bucket ids (the primary key),
`increment_property_count b` raises exactly when no bucket with id `b`
exists — the raised `AppException` carries the bucket-not-found failure
as its cause, and the store is left untouched — and when the bucket
exists the call returns the store with only that bucket changed, its
`property_count` increased by exactly 1, every other field and every
other row unchanged. -/
theorem C2_increment_iff_found_and_exact_frame (store : Store) (gid : Nat)
    (hU : (store.buckets.map GeoBucket.id).Nodup) :
    (GeoBucketService.increment_property_count store gid =
        .error ⟨GeoBucketService.msgIncrementUnexpected,
          [GeoBucketService.msgBucketNotFound]⟩ ↔
      ¬∃ b ∈ store.buckets, b.id = gid) ∧
    (∀ b ∈ store.buckets, b.id = gid →
      ∃ pre post store',
        store.buckets = pre ++ b :: post ∧
        GeoBucketService.increment_property_count store gid = .ok store' ∧
        store'.buckets =
          pre ++ { b with property_count := b.property_count + 1 } :: post ∧
        store'.properties = store.properties ∧
        store'.nextBucketId = store.nextBucketId ∧
        store'.nextPropertyId = store.nextPropertyId) := by
  constructor
  · constructor
    · intro herr
      rintro ⟨b, hmem, hid⟩
      have hfind := findOneBy_key_some GeoBucket.id gid hU hmem hid
      rw [GeoBucketService.increment_property_count, hfind] at herr
      exact Except.noConfusion herr
    · intro habs
      have hfind := findOneBy_key_none (l := store.buckets) GeoBucket.id gid
        (fun a ha hk => habs ⟨a, ha, hk⟩)
      rw [GeoBucketService.increment_property_count, hfind]
  · intro b hmem hid
    obtain ⟨pre, post, hsplit⟩ := List.append_of_mem hmem
    have hfind := findOneBy_key_some GeoBucket.id gid hU hmem hid
    have hU' := hsplit ▸ hU
    have hne := nodup_split_key_ne GeoBucket.id hU'
    refine ⟨pre, post,
      { store with
        buckets := store.buckets.map (fun x =>
          if x.id == gid then
            { x with property_count := x.property_count + 1 }
          else x) },
      hsplit, ?_, ?_, rfl, rfl, rfl⟩
    · rw [GeoBucketService.increment_property_count, hfind]
    · simp only [hsplit, List.map_append, List.map_cons]
      have hpre : pre.map (fun x =>
          if x.id == gid then
            { x with property_count := x.property_count + 1 }
          else x) = pre :=
        map_id_of_mem (fun x hx => by
          simp [show x.id ≠ gid from hid ▸ hne.1 x hx])
      have hpost : post.map (fun x =>
          if x.id == gid then
            { x with property_count := x.property_count + 1 }
          else x) = post :=
        map_id_of_mem (fun x hx => by
          simp [show x.id ≠ gid from hid ▸ hne.2 x hx])
      rw [hpre, hpost]
      simp [hid]

/-- Closed witness for C2: on a store holding exactly `bucketAt100`
(id 1), incrementing id 99 fails and incrementing id 1 yields the store
with only that count changed to 1. -/
theorem C2_increment_iff_found_and_exact_frame_witness :
    GeoBucketService.increment_property_count ⟨[bucketAt100], [], 2, 1⟩ 99 =
      .error ⟨GeoBucketService.msgIncrementUnexpected,
        [GeoBucketService.msgBucketNotFound]⟩ ∧
    ∃ store',
      GeoBucketService.increment_property_count ⟨[bucketAt100], [], 2, 1⟩ 1 =
        .ok store' ∧
      store'.buckets = [{ bucketAt100 with property_count := 1 }] := by
  constructor
  · exact (C2_increment_iff_found_and_exact_frame ⟨[bucketAt100], [], 2, 1⟩ 99
      (by decide)).1.mpr (by decide)
  · obtain ⟨pre, post, store', hsplit, hrun, hbuckets, -⟩ :=
      (C2_increment_iff_found_and_exact_frame ⟨[bucketAt100], [], 2, 1⟩ 1
        (by decide)).2 bucketAt100 (List.mem_cons_self _ _) rfl
    refine ⟨store', hrun, ?_⟩
    have hpre : pre = [] := by
      cases pre with
      | nil => rfl
      | cons x xs => simp at hsplit
    subst hpre
    simp at hsplit
    subst hsplit
    simpa using hbuckets

/-! ## Claim C5 -/

/-- `findOneBy` answers `none` exactly when the filter is empty. -/
theorem findOneBy_ok_none_iff {α : Type} [DecidableEq α] (l : List α)
    (p : α → Bool) : findOneBy l p = .ok none ↔ l.filter p = [] := by
  unfold findOneBy
  cases h : l.filter p with
  | nil => simp
  | cons r rs =>
    cases rs with
    | nil => simp
    | cons r2 rs2 => simp

/-- Claim C5: with the `cellId` unique key in force (pairwise-distinct
`h3_index`), a resolve whose cell is already present returns exactly
that bucket and the whole store unchanged (no field of the bucket, in
particular not `canonical_name`, is modified); and resolving the same
(cell, name) pair again right after any successful resolve returns the
same bucket and leaves the store unchanged — no duplicate bucket is
created for a repeat. -/
theorem C5_resolve_exact_hit_and_repeat_stable
    (gridDisk : Int → List Int)
    (h3ToGeometry : Int → GeoPoint × List GeoPoint)
    (pgSimilarity : String → String → ℚ)
    (store : Store) (cell : Int) (nm nn : String) (p7 : Int)
    (hU : (store.buckets.map GeoBucket.h3_index).Nodup) :
    (∀ b ∈ store.buckets, b.h3_index = cell →
      GeoBucketService.find_or_create_bucket gridDisk h3ToGeometry pgSimilarity
        store none cell nm nn p7 = .ok (b, store)) ∧
    (∀ b1 s1,
      GeoBucketService.find_or_create_bucket gridDisk h3ToGeometry pgSimilarity
        store none cell nm nn p7 = .ok (b1, s1) →
      GeoBucketService.find_or_create_bucket gridDisk h3ToGeometry pgSimilarity
        s1 none cell nm nn p7 = .ok (b1, s1)) := by
  constructor
  · intro b hmem hidx
    have hfind := findOneBy_key_some GeoBucket.h3_index cell hU hmem hidx
    unfold GeoBucketService.find_or_create_bucket
    rw [hfind]
  · intro b1 s1 hrun
    unfold GeoBucketService.find_or_create_bucket at hrun ⊢
    cases hfind : findOneBy store.buckets (fun b => b.h3_index == cell) with
    | error e => rw [hfind] at hrun; exact Except.noConfusion hrun
    | ok ob =>
      cases ob with
      | some b =>
        rw [hfind] at hrun
        dsimp only at hrun
        injection hrun with hrun
        injection hrun with hb hs
        subst hb; subst hs
        rw [hfind]
      | none =>
        rw [hfind] at hrun
        dsimp only at hrun
        cases hfz : store.buckets.find? (fun b =>
            (gridDisk cell).contains b.h3_index &&
              decide (pgSimilarity b.canonical_name_normalized nn > 7 / 10)) with
        | some b =>
          rw [hfz] at hrun
          injection hrun with hrun
          injection hrun with hb hs
          subst hb; subst hs
          rw [hfind]
          dsimp only
          rw [hfz]
        | none =>
          rw [hfz] at hrun
          have hfilnil : store.buckets.filter (fun b => b.h3_index == cell) = [] :=
            (findOneBy_ok_none_iff _ _).mp hfind
          have hnoc : store.buckets.any (fun b => b.h3_index == cell) = false := by
            rw [List.any_eq_false]
            intro x hx
            simpa using List.filter_eq_nil_iff.mp hfilnil x hx
          simp only [Option.toList_none, List.append_nil, hnoc,
            Bool.false_eq_true, if_false] at hrun
          injection hrun with hrun
          injection hrun with hb hs
          subst hb; subst hs
          simp [findOneBy, List.filter_append, hfilnil]

/-- Closed witness for C5: resolving cell 100 against a store already
holding `bucketAt100` returns that bucket and the unchanged store. -/
theorem C5_resolve_exact_hit_and_repeat_stable_witness :
    GeoBucketService.find_or_create_bucket gridDisk0 h3ToGeometry0 pgSimilarity0
      ⟨[bucketAt100], [], 2, 1⟩ none 100 "Sangotedo" "sangotedo" 10 =
      .ok (bucketAt100, ⟨[bucketAt100], [], 2, 1⟩) :=
  (C5_resolve_exact_hit_and_repeat_stable gridDisk0 h3ToGeometry0 pgSimilarity0
    ⟨[bucketAt100], [], 2, 1⟩ 100 "Sangotedo" "sangotedo" 10 (by decide)).1
    bucketAt100 (List.mem_cons_self _ _) rfl

/-! ## Claim C4 -/

/-- `findOneBy` can only answer `some a` for a member satisfying the
predicate. -/
theorem findOneBy_ok_some_imp {α : Type} [DecidableEq α] {l : List α}
    {p : α → Bool} {a : α} (h : findOneBy l p = .ok (some a)) :
    a ∈ l ∧ p a = true := by
  cases hf : l.filter p with
  | nil =>
    have h2 : findOneBy l p = .ok none := by unfold findOneBy; rw [hf]
    rw [h2] at h
    injection h with h
    exact Option.noConfusion h
  | cons r rs =>
    cases rs with
    | nil =>
      have h2 : findOneBy l p = .ok (some r) := by unfold findOneBy; rw [hf]
      rw [h2] at h
      injection h with h
      injection h with h
      cases h
      exact List.mem_filter.mp (hf ▸ List.mem_cons_self _ _)
    | cons r2 rs2 =>
      have h2 : findOneBy l p =
          .error ⟨"Failed to find record", ["MultipleResultsFound"]⟩ := by
        unfold findOneBy; rw [hf]
      rw [h2] at h
      exact Except.noConfusion h

/-- A successful `find_or_create_bucket` never touches the property
table or its id sequence. -/
theorem find_or_create_bucket_property_frame
    (gridDisk : Int → List Int)
    (h3ToGeometry : Int → GeoPoint × List GeoPoint)
    (pgSimilarity : String → String → ℚ)
    {store : Store} {ci : Option GeoBucket} {cell : Int} {nm nn : String}
    {p7 : Int} {b1 : GeoBucket} {s1 : Store}
    (h : GeoBucketService.find_or_create_bucket gridDisk h3ToGeometry
      pgSimilarity store ci cell nm nn p7 = .ok (b1, s1)) :
    s1.properties = store.properties ∧
      s1.nextPropertyId = store.nextPropertyId := by
  unfold GeoBucketService.find_or_create_bucket at h
  cases hfind : findOneBy store.buckets (fun b => b.h3_index == cell) with
  | error e => rw [hfind] at h; exact Except.noConfusion h
  | ok ob =>
    cases ob with
    | some b =>
      rw [hfind] at h
      dsimp only at h
      injection h with h
      injection h with hb hs
      subst hs
      exact ⟨rfl, rfl⟩
    | none =>
      rw [hfind] at h
      dsimp only at h
      cases hfz : store.buckets.find? (fun b =>
          (gridDisk cell).contains b.h3_index &&
            decide (pgSimilarity b.canonical_name_normalized nn > 7 / 10)) with
      | some b =>
        rw [hfz] at h
        injection h with h
        injection h with hb hs
        subst hs
        exact ⟨rfl, rfl⟩
      | none =>
        rw [hfz] at h
        by_cases hc : (store.buckets ++ ci.toList).any
            (fun b => b.h3_index == cell) = true
        · rw [if_pos hc] at h; exact Except.noConfusion h
        · rw [if_neg hc] at h
          injection h with h
          injection h with hb hs
          subst hs
          exact ⟨rfl, rfl⟩

/-- A successful `increment_property_count` returns the same store with
only the bucket list rewritten by the single-row update. -/
theorem increment_ok_shape {store : Store} {gid : Nat} {s' : Store}
    (h : GeoBucketService.increment_property_count store gid = .ok s') :
    s'.buckets = store.buckets.map (fun b =>
        if b.id == gid then { b with property_count := b.property_count + 1 }
        else b) ∧
      s'.properties = store.properties ∧
      s'.nextBucketId = store.nextBucketId ∧
      s'.nextPropertyId = store.nextPropertyId ∧
      ∃ b0 ∈ store.buckets, b0.id = gid := by
  unfold GeoBucketService.increment_property_count at h
  cases hfind : findOneBy store.buckets (fun b => b.id == gid) with
  | error e => rw [hfind] at h; exact Except.noConfusion h
  | ok ob =>
    cases ob with
    | none => rw [hfind] at h; exact Except.noConfusion h
    | some b0 =>
      rw [hfind] at h
      dsimp only at h
      injection h with h
      subst h
      have hm := findOneBy_ok_some_imp hfind
      exact ⟨rfl, rfl, rfl, rfl, b0, hm.1, by simpa using hm.2⟩

/-- Claim C4: `create_property` runs its whole body inside one outermost
transaction scope.  On any failing step the outcome is an error, the
committed state is exactly the initial state (no listing-without-bucket
or bucket-without-listing state is observable), and the scope rolled
back once without committing.  On success the scope committed exactly
once, the new listing is in the committed state but not in the initial
one, and its bucket exists in the committed state with a positive
listing count. -/
theorem C4_create_property_atomic
    (gridDisk : Int → List Int)
    (h3ToGeometry : Int → GeoPoint × List GeoPoint)
    (pgSimilarity : String → String → ℚ)
    (latlngToCell : ℚ → ℚ → Nat → Int)
    (payload : PropertyCreateRequest) (db : Store)
    (hWf : ∀ p ∈ db.properties, p.id < db.nextPropertyId) :
    (∀ e, (PropertyService.create_property gridDisk h3ToGeometry pgSimilarity
        latlngToCell payload db).result = .error e →
      (PropertyService.create_property gridDisk h3ToGeometry pgSimilarity
          latlngToCell payload db).db = db ∧
        (PropertyService.create_property gridDisk h3ToGeometry pgSimilarity
          latlngToCell payload db).commits = 0 ∧
        (PropertyService.create_property gridDisk h3ToGeometry pgSimilarity
          latlngToCell payload db).rollbacks = 1) ∧
    (∀ prop, (PropertyService.create_property gridDisk h3ToGeometry pgSimilarity
        latlngToCell payload db).result = .ok prop →
      (PropertyService.create_property gridDisk h3ToGeometry pgSimilarity
          latlngToCell payload db).commits = 1 ∧
        (PropertyService.create_property gridDisk h3ToGeometry pgSimilarity
          latlngToCell payload db).rollbacks = 0 ∧
        prop ∈ (PropertyService.create_property gridDisk h3ToGeometry pgSimilarity
          latlngToCell payload db).db.properties ∧
        prop ∉ db.properties ∧
        ∃ b ∈ (PropertyService.create_property gridDisk h3ToGeometry pgSimilarity
          latlngToCell payload db).db.buckets,
          prop.geo_bucket_id = some b.id ∧ 1 ≤ b.property_count) := by
  unfold PropertyService.create_property transactional
  cases hbody : PropertyService.create_property_body gridDisk h3ToGeometry
      pgSimilarity latlngToCell payload db with
  | error e0 =>
    refine ⟨fun e he => ⟨rfl, rfl, rfl⟩, fun prop hp => ?_⟩
    dsimp only at hp
    exact Except.noConfusion hp
  | ok pair =>
    obtain ⟨prop0, s⟩ := pair
    refine ⟨fun e he => by dsimp only at he; exact Except.noConfusion he,
      fun prop hp => ?_⟩
    dsimp only at hp ⊢
    injection hp with hp
    subst hp
    unfold PropertyService.create_property_body at hbody
    dsimp only at hbody
    cases hfoc : GeoBucketService.find_or_create_bucket gridDisk h3ToGeometry
        pgSimilarity db none
        (H3Utils.calculate_h3_indexes latlngToCell payload.lat payload.lng).h3_r8
        payload.location_name (LocationUtils.normalizeS payload.location_name)
        (H3Utils.calculate_h3_indexes latlngToCell payload.lat payload.lng).h3_r7 with
    | error e1 => rw [hfoc] at hbody; exact Except.noConfusion hbody
    | ok pair1 =>
      obtain ⟨bucket, s1⟩ := pair1
      rw [hfoc] at hbody
      dsimp only at hbody
      have hfr := find_or_create_bucket_property_frame gridDisk h3ToGeometry
        pgSimilarity hfoc
      cases hinc : GeoBucketService.increment_property_count
          { s1 with
            properties := s1.properties ++
              [{ id := s1.nextPropertyId
                 title := payload.title
                 location_name := payload.location_name
                 location_name_normalized :=
                   LocationUtils.normalizeS payload.location_name
                 coordinates := (payload.lng, payload.lat)
                 h3_index_r8 := (H3Utils.calculate_h3_indexes latlngToCell
                   payload.lat payload.lng).h3_r8
                 h3_index_r9 := (H3Utils.calculate_h3_indexes latlngToCell
                   payload.lat payload.lng).h3_r9
                 attributes := payload.attributes
                 geo_bucket_id := some bucket.id }]
            nextPropertyId := s1.nextPropertyId + 1 } bucket.id with
      | error e2 => rw [hinc] at hbody; exact Except.noConfusion hbody
      | ok s3 =>
        rw [hinc] at hbody
        injection hbody with hbody
        injection hbody with hprop hs
        subst hs
        obtain ⟨hb3, hp3, _, _, b0, hb0mem, hb0id⟩ := increment_ok_shape hinc
        refine ⟨rfl, rfl, ?_, ?_, ?_⟩
        · rw [hp3]
          dsimp only
          rw [← hprop]
          exact List.mem_append_right _ (List.mem_cons_self _ _)
        · intro hmem
          have := hWf _ hmem
          rw [← hprop] at this
          dsimp only at this
          rw [hfr.2] at this
          exact Nat.lt_irrefl _ this
        · refine ⟨{ b0 with property_count := b0.property_count + 1 }, ?_, ?_, ?_⟩
          · rw [hb3]
            have : (fun b =>
                if b.id == bucket.id then
                  { b with property_count := b.property_count + 1 }
                else b) b0 =
                { b0 with property_count := b0.property_count + 1 } := by
              simp [hb0id]
            exact this ▸ List.mem_map_of_mem _ hb0mem
          · rw [← hprop]
            dsimp only
            rw [hb0id]
          · exact Nat.le_add_left 1 _

/-- Closed witness for C4: running `create_property` for `payloadLekki`
on the empty store under the stand-in collaborators succeeds with
`propLekki`, commits once, and the committed state holds the listing and
its counted bucket. -/
theorem C4_create_property_atomic_witness :
    (PropertyService.create_property gridDisk0 h3ToGeometry0 pgSimilarity0
        latlngToCell0 payloadLekki Store.empty).result = .ok propLekki ∧
    (PropertyService.create_property gridDisk0 h3ToGeometry0 pgSimilarity0
        latlngToCell0 payloadLekki Store.empty).commits = 1 ∧
    ∃ b ∈ (PropertyService.create_property gridDisk0 h3ToGeometry0 pgSimilarity0
        latlngToCell0 payloadLekki Store.empty).db.buckets,
      propLekki.geo_bucket_id = some b.id ∧ 1 ≤ b.property_count := by
  have hres : (PropertyService.create_property gridDisk0 h3ToGeometry0
      pgSimilarity0 latlngToCell0 payloadLekki Store.empty).result =
      .ok propLekki := by rfl
  have h := (C4_create_property_atomic gridDisk0 h3ToGeometry0 pgSimilarity0
    latlngToCell0 payloadLekki Store.empty (by intro p hp; cases hp)).2
    propLekki hres
  exact ⟨hres, h.1, h.2.2.2.2⟩

/-! ## Claim C10 -/

/-- Claim C10: when a property with the payload title is already stored
(the title lookup finding exactly that row), `create_property_if_not_exists`
returns that stored property and commits the session with the entire
store unchanged: no bucket is created or incremented and no listing is
persisted — for every payload carrying that title, whatever its
coordinates, location name or attributes. -/
theorem C10_create_if_exists_returns_existing_unchanged
    (gridDisk : Int → List Int)
    (h3ToGeometry : Int → GeoPoint × List GeoPoint)
    (pgSimilarity : String → String → ℚ)
    (latlngToCell : ℚ → ℚ → Nat → Int)
    (payload : PropertyCreateRequest) (db : Store) (p0 : Property)
    (hFilter : db.properties.filter (fun p => p.title == payload.title) = [p0]) :
    PropertyService.create_property_if_not_exists gridDisk h3ToGeometry
      pgSimilarity latlngToCell payload db = ⟨.ok p0, db, 1, 0⟩ := by
  have hfind : findOneBy db.properties (fun p => p.title == payload.title) =
      .ok (some p0) := by
    unfold findOneBy
    rw [hFilter]
  unfold PropertyService.create_property_if_not_exists transactional
    PropertyService.create_property_if_not_exists_body
  rw [hfind]

/-- Closed witness for C10: a payload titled like `storedProperty` but
with different coordinates and location name returns the stored property
and leaves the store with exactly its previous content. -/
theorem C10_create_if_exists_returns_existing_unchanged_witness :
    PropertyService.create_property_if_not_exists gridDisk0 h3ToGeometry0
      pgSimilarity0 latlngToCell0 payloadLekki
      ⟨[bucketAt100], [storedProperty], 2, 2⟩ =
      ⟨.ok storedProperty, ⟨[bucketAt100], [storedProperty], 2, 2⟩, 1, 0⟩ :=
  C10_create_if_exists_returns_existing_unchanged gridDisk0 h3ToGeometry0
    pgSimilarity0 latlngToCell0 payloadLekki
    ⟨[bucketAt100], [storedProperty], 2, 2⟩ storedProperty
    (by with_unfolding_all decide)

/-! ## Claim C8 -/

/-- Claim C8 is false in its "if and only if" part: a bucket whose
center point has longitude 0 (the prime meridian) makes the extent
values `min_lng = max_lng = 0.0`, which are falsy inside
`all([bbox.min_lat, bbox.max_lat, bbox.min_lng, bbox.max_lng])`, so the
returned bounding box is `None` although a bucket with a center point
exists. -/
theorem C8_bounding_box_counterexample :
    (GeoBucketService.get_stats areaFn0 cellToLatLng0 h3ToString0
        ⟨[bucketOnMeridian], [], 2, 1⟩).coverage.bounding_box = none ∧
    bucketOnMeridian.center_point ≠ none := by
  exact ⟨by with_unfolding_all decide, by decide⟩

/-- The extent row exists exactly when some bucket has a center point. -/
theorem bboxExtent_isSome_iff (bs : List GeoBucket) :
    GeoBucketService.bboxExtent bs ≠ none ↔
      ∃ b ∈ bs, b.center_point ≠ none := by
  unfold GeoBucketService.bboxExtent
  cases hc : GeoBucketService.bucketCenters bs with
  | nil =>
    simp only [ne_eq, not_true_eq_false, false_iff]
    rintro ⟨b, hb, hcp⟩
    have := List.filterMap_eq_nil_iff.mp hc b hb
    exact hcp this
  | cons c cs =>
    simp only [ne_eq, reduceCtorEq, not_false_eq_true, true_iff]
    have : c ∈ GeoBucketService.bucketCenters bs := hc ▸ List.mem_cons_self c cs
    obtain ⟨b, hb, hbc⟩ := List.mem_filterMap.mp this
    exact ⟨b, hb, by rw [hbc]; exact Option.noConfusion⟩

/-- Claim C8, amended: on the empty population the stats report
`totalBuckets = 0`, `totalListings = 0`, a `None` bounding box and zero
density; and in general the coverage bounding box is non-null iff at
least one bucket has a center point AND none of the four extent values
(min/max lat/lng) equals zero — the zero-extent exclusion being the
amendment the counterexample forces. -/
theorem C8_stats_empty_and_bbox_condition
    (areaFn : ℚ → ℚ → ℚ → ℚ → ℚ) (cellToLatLng : Int → ℚ × ℚ)
    (h3ToString : Int → String) :
    ((GeoBucketService.get_stats areaFn cellToLatLng h3ToString
        Store.empty).total_buckets = 0 ∧
      (GeoBucketService.get_stats areaFn cellToLatLng h3ToString
        Store.empty).total_properties = 0 ∧
      (GeoBucketService.get_stats areaFn cellToLatLng h3ToString
        Store.empty).coverage.bounding_box = none ∧
      (GeoBucketService.get_stats areaFn cellToLatLng h3ToString
        Store.empty).coverage.avg_bucket_density = 0) ∧
    ∀ store : Store,
      (GeoBucketService.get_stats areaFn cellToLatLng h3ToString
          store).coverage.bounding_box ≠ none ↔
        ((∃ b ∈ store.buckets, b.center_point ≠ none) ∧
          ∀ q, GeoBucketService.bboxExtent store.buckets = some q →
            q.1 ≠ 0 ∧ q.2.1 ≠ 0 ∧ q.2.2.1 ≠ 0 ∧ q.2.2.2 ≠ 0) := by
  constructor
  · exact ⟨rfl, rfl, rfl, rfl⟩
  · intro store
    show (GeoBucketService.get_coverage_stats areaFn store.properties.length
        store.buckets).bounding_box ≠ none ↔ _
    unfold GeoBucketService.get_coverage_stats
    cases he : GeoBucketService.bboxExtent store.buckets with
    | none =>
      have hnone : GeoBucketService.extentAllTruthy none = false := rfl
      simp only [he, hnone, Bool.false_eq_true, if_false]
      simp only [ne_eq, not_true_eq_false, false_iff, not_and]
      intro hex
      exact absurd ((bboxExtent_isSome_iff store.buckets).mpr hex)
        (by rw [he]; simp)
    | some q =>
      obtain ⟨minLng, maxLng, minLat, maxLat⟩ := q
      dsimp only
      by_cases ht : GeoBucketService.extentAllTruthy
          (some (minLng, maxLng, minLat, maxLat)) = true
      · rw [if_pos ht]
        dsimp only
        constructor
        · intro _
          refine ⟨(bboxExtent_isSome_iff store.buckets).mp (by rw [he]; simp),
            ?_⟩
          rintro ⟨a, b, c, d⟩ hq
          injection hq with hq
          cases hq
          unfold GeoBucketService.extentAllTruthy at ht
          simp only [Bool.and_eq_true, Bool.not_eq_true', beq_eq_false_iff_ne,
            ne_eq] at ht
          exact ⟨ht.1.2, ht.2, ht.1.1.1, ht.1.1.2⟩
        · intro _
          simp
      · rw [if_neg ht]
        dsimp only
        simp only [ne_eq, not_true_eq_false, false_iff, not_and]
        intro hex hall
        apply ht
        have := hall (minLng, maxLng, minLat, maxLat) rfl
        unfold GeoBucketService.extentAllTruthy
        simp only [Bool.and_eq_true, Bool.not_eq_true', beq_eq_false_iff_ne,
          ne_eq]
        exact ⟨⟨⟨this.2.2.1, this.2.2.2⟩, this.1⟩, this.2.1⟩

/-- Closed witness for C8: on a store holding `bucketAt100` (center
(3.6, 6.5), all extent values nonzero) the bounding box is non-null. -/
theorem C8_stats_empty_and_bbox_condition_witness :
    (GeoBucketService.get_stats areaFn0 cellToLatLng0 h3ToString0
        ⟨[bucketAt100], [], 2, 1⟩).coverage.bounding_box ≠ none := by
  apply ((C8_stats_empty_and_bbox_condition areaFn0 cellToLatLng0
    h3ToString0).2 ⟨[bucketAt100], [], 2, 1⟩).mpr
  constructor
  · exact ⟨bucketAt100, List.mem_cons_self _ _, by decide⟩
  · intro q hq
    have : q = ((36 : ℚ) / 10, (36 : ℚ) / 10, (65 : ℚ) / 10, (65 : ℚ) / 10) := by
      have h2 : GeoBucketService.bboxExtent [bucketAt100] =
          some ((36 : ℚ) / 10, (36 : ℚ) / 10, (65 : ℚ) / 10, (65 : ℚ) / 10) := by
        rfl
      rw [h2] at hq
      injection hq with hq
      exact hq.symm
    subst this
    refine ⟨?_, ?_, ?_, ?_⟩ <;> with_unfolding_all decide

/-! ## Claim C9 -/

/-- Claim C9 is false in its error part: `calculate_h3_indexes` performs
no range validation — it simply calls `h3.latlng_to_cell` three times,
and the h3 library is total on finite coordinates (out-of-range angles
are normalised) — so at (lat, lng) = (100, 200), outside the claimed
domain, the code returns three cell identifiers where the spec-shaped
`indexAt_spec` fails with `InvalidCoordinateError`. -/
theorem C9_indexing_total_counterexample :
    H3Utils.indexAt_spec latlngToCell0 100 200 =
      .error ⟨"InvalidCoordinateError", []⟩ ∧
    H3Utils.calculate_h3_indexes latlngToCell0 100 200 =
      { h3_r7 := 10, h3_r8 := 11, h3_r9 := 12 } := by
  constructor
  · unfold H3Utils.indexAt_spec
    rw [if_pos]
    right; left
    norm_num
  · with_unfolding_all decide

/-- A payload accepted by the request validation has in-range
coordinates. -/
theorem validateCreateRequest_ok_domain {raw p : PropertyCreateRequest}
    (h : validateCreateRequest raw = .ok p) :
    -90 ≤ raw.lat ∧ raw.lat ≤ 90 ∧ -180 ≤ raw.lng ∧ raw.lng ≤ 180 := by
  unfold validateCreateRequest at h
  dsimp only at h
  split_ifs at h with h1 h2 h3 h4
  simp only [Bool.or_eq_true, decide_eq_true_eq, not_or] at h3 h4
  exact ⟨le_of_not_lt h3.1, le_of_not_lt h3.2, le_of_not_lt h4.1,
    le_of_not_lt h4.2⟩

/-- Claim C9, amended: `calculate_h3_indexes` is deterministic and total
for every coordinate pair — it always returns the three cell identifiers
of its `latlng_to_cell` collaborator — and the system rejects
out-of-domain coordinates before any indexing code runs, at the request
schema (pydantic `Latitude`/`Longitude` bounds on
`PropertyCreateRequest`), as `RequestValidationError` rather than an
`InvalidCoordinateError` raised by the indexer (no such type exists in
the code). -/
theorem C9_determinism_and_validation_gate
    (latlngToCell : ℚ → ℚ → Nat → Int) (raw : PropertyCreateRequest) :
    (H3Utils.calculate_h3_indexes latlngToCell raw.lat raw.lng =
      { h3_r7 := latlngToCell raw.lat raw.lng 7
        h3_r8 := latlngToCell raw.lat raw.lng 8
        h3_r9 := latlngToCell raw.lat raw.lng 9 }) ∧
    ((raw.lat < -90 ∨ raw.lat > 90 ∨ raw.lng < -180 ∨ raw.lng > 180) →
      ∃ e, validateCreateRequest raw = .error e ∧
        e.message = "RequestValidationError") := by
  refine ⟨rfl, fun hdom => ?_⟩
  cases hv : validateCreateRequest raw with
  | error e =>
    refine ⟨e, rfl, ?_⟩
    unfold validateCreateRequest at hv
    dsimp only at hv
    split_ifs at hv <;> · injection hv with hv; rw [← hv]
  | ok p =>
    obtain ⟨h1, h2, h3, h4⟩ := validateCreateRequest_ok_domain hv
    rcases hdom with h | h | h | h
    · exact absurd h1 (not_le_of_lt h)
    · exact absurd h2 (not_le_of_lt h)
    · exact absurd h3 (not_le_of_lt h)
    · exact absurd h4 (not_le_of_lt h)

/-- Closed witness for C9: the out-of-domain coordinate (100, 200) is
rejected by request validation before indexing. -/
theorem C9_determinism_and_validation_gate_witness :
    ∃ e, validateCreateRequest
        { title := "t", location_name := "Lekki", lat := 100, lng := 200,
          attributes := [] } = .error e ∧
      e.message = "RequestValidationError" :=
  (C9_determinism_and_validation_gate latlngToCell0
    { title := "t", location_name := "Lekki", lat := 100, lng := 200,
      attributes := [] }).2 (by right; left; norm_num)

/-! ## Text-pipeline lemmas for the amended C6 and C7 claims -/

namespace LocationUtils

theorem dropWhile_head?_false {p : Char → Bool} :
    ∀ {l : List Char} {c : Char}, (l.dropWhile p).head? = some c →
      p c = false := by
  intro l
  induction l with
  | nil => intro c h; cases h
  | cons d rest ih =>
    intro c h
    rw [List.dropWhile_cons] at h
    by_cases hp : p d = true
    · rw [if_pos hp] at h; exact ih h
    · rw [if_neg hp] at h
      injection h with h
      subst h
      exact Bool.eq_false_iff.mpr hp

theorem dropWhile_eq_self_of_head {p : Char → Bool} {l : List Char}
    (h : ∀ c, l.head? = some c → p c = false) : l.dropWhile p = l := by
  cases l with
  | nil => rfl
  | cons d rest =>
    rw [List.dropWhile_cons, h d rfl]
    simp

theorem mem_trimBoth {p : Char → Bool} {l : List Char} {c : Char}
    (h : c ∈ trimBoth p l) : c ∈ l := by
  unfold trimBoth at h
  rw [List.mem_reverse] at h
  have h2 := (List.dropWhile_sublist p).subset h
  rw [List.mem_reverse] at h2
  exact (List.dropWhile_sublist p).subset h2

theorem trimBoth_head?_false {p : Char → Bool} {l : List Char} {c : Char}
    (h : (trimBoth p l).head? = some c) : p c = false := by
  unfold trimBoth at h
  have hpre : ((l.dropWhile p).reverse.dropWhile p).reverse <+: l.dropWhile p :=
    List.reverse_suffix.mp
      (by rw [List.reverse_reverse]; exact List.dropWhile_suffix p)
  obtain ⟨t, ht⟩ := hpre
  cases hbr : ((l.dropWhile p).reverse.dropWhile p).reverse with
  | nil => rw [hbr] at h; cases h
  | cons x xs =>
    rw [hbr] at h ht
    injection h with h
    subst h
    exact dropWhile_head?_false (l := l) (by rw [← ht]; rfl)

theorem trimBoth_revhead?_false {p : Char → Bool} {l : List Char} {c : Char}
    (h : (trimBoth p l).reverse.head? = some c) : p c = false := by
  unfold trimBoth at h
  rw [List.reverse_reverse] at h
  exact dropWhile_head?_false h

theorem trimBoth_eq_self {p : Char → Bool} {l : List Char}
    (h1 : ∀ c, l.head? = some c → p c = false)
    (h2 : ∀ c, l.reverse.head? = some c → p c = false) :
    trimBoth p l = l := by
  unfold trimBoth
  rw [dropWhile_eq_self_of_head h1, dropWhile_eq_self_of_head h2,
    List.reverse_reverse]

/-- Trimming a weaker class after a stronger one is a no-op. -/
theorem trimBoth_of_subclass {p q : Char → Bool}
    (himp : ∀ c, p c = true → q c = true) (l : List Char) :
    trimBoth p (trimBoth q l) = trimBoth q l := by
  apply trimBoth_eq_self
  · intro c h
    have hq := trimBoth_head?_false h
    cases hp : p c with
    | false => rfl
    | true => rw [himp c hp] at hq; exact Bool.noConfusion hq
  · intro c h
    have hq := trimBoth_revhead?_false h
    cases hp : p c with
    | false => rfl
    | true => rw [himp c hp] at hq; exact Bool.noConfusion hq

theorem whitespace_is_edge : ∀ c, isPyWs c = true → isEdgeChar c = true := by
  intro c h
  unfold isEdgeChar
  rw [h]
  simp

/-- Python lower is a retraction: its image is fixed by it. -/
theorem pyLower_idem (c : Char) : pyLower (pyLower c) = pyLower c := by
  unfold pyLower
  by_cases h : (c.toNat ≥ 65 && c.toNat ≤ 90) = true
  · rw [if_pos h]
    simp only [Bool.and_eq_true, decide_eq_true_eq, ge_iff_le] at h
    have hv : (c.toNat + 32).isValidChar := Or.inl (by omega)
    have htn : (Char.ofNat (c.toNat + 32)).toNat = c.toNat + 32 := by
      rw [Char.ofNat, dif_pos hv]; rfl
    rw [if_neg]
    rw [htn]
    simp only [Bool.and_eq_true, decide_eq_true_eq, ge_iff_le, not_and]
    intro _
    omega
  · rw [if_neg h, if_neg h]

/-- Characters of the collapsed string come from the input or are the
substituted space. -/
theorem mem_collapseWsGo {c : Char} :
    ∀ (flag : Bool) (l : List Char), c ∈ collapseWsGo flag l →
      c ∈ l ∨ c = ' ' := by
  intro flag l
  induction l generalizing flag with
  | nil => intro h; cases flag <;> cases h
  | cons d rest ih =>
    intro h
    cases flag with
    | true =>
      unfold collapseWsGo at h
      by_cases hw : isPyWs d = true
      · rw [if_pos hw] at h
        rcases ih true h with h2 | h2
        · exact Or.inl (List.mem_cons_of_mem d h2)
        · exact Or.inr h2
      · rw [if_neg hw] at h
        rcases List.mem_cons.mp h with h2 | h2
        · exact Or.inl (h2 ▸ List.mem_cons_self d rest)
        · rcases ih false h2 with h3 | h3
          · exact Or.inl (List.mem_cons_of_mem d h3)
          · exact Or.inr h3
    | false =>
      unfold collapseWsGo at h
      by_cases hw : isPyWs d = true
      · rw [if_pos hw] at h
        rcases List.mem_cons.mp h with h2 | h2
        · exact Or.inr h2
        · rcases ih true h2 with h3 | h3
          · exact Or.inl (List.mem_cons_of_mem d h3)
          · exact Or.inr h3
      · rw [if_neg hw] at h
        rcases List.mem_cons.mp h with h2 | h2
        · exact Or.inl (h2 ▸ List.mem_cons_self d rest)
        · rcases ih false h2 with h3 | h3
          · exact Or.inl (List.mem_cons_of_mem d h3)
          · exact Or.inr h3

/-- Every whitespace character of the collapsed string is the space. -/
theorem collapseWsGo_ws_is_space {c : Char} :
    ∀ (flag : Bool) (l : List Char), c ∈ collapseWsGo flag l →
      isPyWs c = true → c = ' ' := by
  intro flag l
  induction l generalizing flag with
  | nil => intro h; cases flag <;> cases h
  | cons d rest ih =>
    intro h hws
    cases flag with
    | true =>
      unfold collapseWsGo at h
      by_cases hw : isPyWs d = true
      · rw [if_pos hw] at h
        exact ih true h hws
      · rw [if_neg hw] at h
        rcases List.mem_cons.mp h with h2 | h2
        · rw [h2] at hws; rw [hws] at hw; exact absurd rfl hw
        · exact ih false h2 hws
    | false =>
      unfold collapseWsGo at h
      by_cases hw : isPyWs d = true
      · rw [if_pos hw] at h
        rcases List.mem_cons.mp h with h2 | h2
        · exact h2
        · exact ih true h2 hws
      · rw [if_neg hw] at h
        rcases List.mem_cons.mp h with h2 | h2
        · rw [h2] at hws; rw [hws] at hw; exact absurd rfl hw
        · exact ih false h2 hws

/-- Characters of split segments come from the accumulator or the
input. -/
theorem mem_splitOnGo {sep : Char} :
    ∀ (l acc : List Char) {part : List Char} {c : Char},
      part ∈ splitOnGo sep acc l → c ∈ part → c ∈ acc ∨ c ∈ l := by
  intro l
  induction l with
  | nil =>
    intro acc part c hp hc
    unfold splitOnGo at hp
    rcases List.mem_singleton.mp hp with rfl
    exact Or.inl (List.mem_reverse.mp hc)
  | cons d rest ih =>
    intro acc part c hp hc
    unfold splitOnGo at hp
    by_cases hd : (d == sep) = true
    · rw [if_pos hd] at hp
      rcases List.mem_cons.mp hp with rfl | hp2
      · exact Or.inl (List.mem_reverse.mp hc)
      · rcases ih [] hp2 hc with h2 | h2
        · cases h2
        · exact Or.inr (List.mem_cons_of_mem d h2)
    · rw [if_neg hd] at hp
      rcases ih (d :: acc) hp hc with h2 | h2
      · rcases List.mem_cons.mp h2 with rfl | h3
        · exact Or.inr (List.mem_cons_self _ _)
        · exact Or.inl h3
      · exact Or.inr (List.mem_cons_of_mem d h2)

/-- The primary segment consists of characters of the input. -/
theorem mem_extractPrimaryGo {l : List Char} {c : Char} :
    ∀ (seps : List Char), c ∈ extractPrimaryGo l seps → c ∈ l := by
  intro seps
  induction seps with
  | nil => intro h; exact h
  | cons sep rest ih =>
    intro h
    unfold extractPrimaryGo at h
    by_cases hc : l.contains sep = true
    · rw [if_pos hc] at h
      cases hm : ((splitOn sep l).map pyStrip).filter
          (fun p => !p.isEmpty) with
      | nil => rw [hm] at h; exact ih h
      | cons part parts =>
        rw [hm] at h
        have hpartmem : part ∈ ((splitOn sep l).map pyStrip).filter
            (fun p => !p.isEmpty) := hm ▸ List.mem_cons_self part parts
        have := (List.mem_filter.mp hpartmem).1
        obtain ⟨p0, hp0, hps⟩ := List.mem_map.mp this
        have hcl : c ∈ pyStrip p0 := hps ▸ h
        have hcp0 : c ∈ p0 := mem_trimBoth hcl
        rcases mem_splitOnGo l [] hp0 hcp0 with h2 | h2
        · cases h2
        · exact h2
    · rw [if_neg hc] at h
      exact ih h

/-- The substitution scanner only emits input characters. -/
theorem mem_scanSub {matchLen : List Char → Option Nat} {c : Char} :
    ∀ (l : List Char) (flag : Bool) (skip : Nat),
      c ∈ scanSub matchLen flag skip l → c ∈ l := by
  intro l
  induction l with
  | nil => intro flag skip h; cases skip <;> cases h
  | cons d rest ih =>
    intro flag skip h
    cases skip with
    | succ k =>
      unfold scanSub at h
      exact List.mem_cons_of_mem d (ih _ _ h)
    | zero =>
      unfold scanSub at h
      by_cases hf : flag = true
      · rw [if_pos hf] at h
        rcases List.mem_cons.mp h with rfl | h2
        · exact List.mem_cons_self _ _
        · exact List.mem_cons_of_mem d (ih _ _ h2)
      · rw [if_neg hf] at h
        cases hm : matchLen (d :: rest) with
        | some n =>
          cases n with
          | zero =>
            rw [hm] at h
            rcases List.mem_cons.mp h with rfl | h2
            · exact List.mem_cons_self _ _
            · exact List.mem_cons_of_mem d (ih _ _ h2)
          | succ m =>
            rw [hm] at h
            exact List.mem_cons_of_mem d (ih _ _ h)
        | none =>
          rw [hm] at h
          rcases List.mem_cons.mp h with rfl | h2
          · exact List.mem_cons_self _ _
          · exact List.mem_cons_of_mem d (ih _ _ h2)

/-- Characters of `removeLocationPatterns` output come from its input. -/
theorem mem_removeLocationPatterns {l : List Char} {c : Char}
    (h : c ∈ removeLocationPatterns l) : c ∈ l := by
  unfold removeLocationPatterns at h
  exact mem_scanSub _ _ _
    (mem_scanSub _ _ _
      (mem_scanSub _ _ _
        (mem_scanSub _ _ _ (mem_trimBoth h))))

/-- Characters of the full normalisation output are images of input
characters under `pyLower`, or the substituted space. -/
theorem mem_normalize {s : List Char} {c : Char} (h : c ∈ normalize s) :
    (∃ c0, c0 ∈ s ∧ c = pyLower c0) ∨ c = ' ' := by
  unfold normalize at h
  by_cases hs : s.isEmpty = true
  · rw [if_pos hs] at h; cases h
  · rw [if_neg hs] at h
    have h6 := mem_trimBoth (mem_trimBoth h)
    have h5 := mem_removeLocationPatterns h6
    have h4 := mem_extractPrimaryGo SEPARATORS h5
    have h3 := (List.mem_filter.mp h4).1
    rcases mem_collapseWsGo _ _ h3 with h2 | h2
    · have h1 := (List.mem_filter.mp h2).1
      have h0 := mem_trimBoth h1
      obtain ⟨c0, hc0, hcl⟩ := List.mem_map.mp h0
      exact Or.inl ⟨c0, hc0, hcl.symm⟩
    · exact Or.inr h2

/-- The tail of a single-spaced string is single-spaced. -/
theorem singleSpaced_tail {c : Char} {rest : List Char}
    (h : singleSpaced (c :: rest) = true) : singleSpaced rest = true := by
  cases rest with
  | nil => rfl
  | cons d r =>
    unfold singleSpaced at h
    rw [Bool.and_eq_true] at h
    exact h.2

/-- Collapsing is the identity on single-spaced strings whose whitespace
is only the space character. -/
theorem collapseWsGo_id :
    ∀ (l : List Char), (∀ c ∈ l, isPyWs c = true → c = ' ') →
      singleSpaced l = true →
      collapseWsGo false l = l ∧
        ((∀ c, l.head? = some c → isPyWs c = false) →
          collapseWsGo true l = l) := by
  intro l
  induction l with
  | nil => intro _ _; exact ⟨rfl, fun _ => rfl⟩
  | cons c rest ih =>
    intro hws hss
    have hws' : ∀ x ∈ rest, isPyWs x = true → x = ' ' :=
      fun x hx => hws x (List.mem_cons_of_mem c hx)
    obtain ⟨ihA, ihB⟩ := ih hws' (singleSpaced_tail hss)
    constructor
    · unfold collapseWsGo
      by_cases hc : isPyWs c = true
      · rw [if_pos hc]
        have hce : c = ' ' := hws c (List.mem_cons_self _ _) hc
        have hrest : collapseWsGo true rest = rest := by
          apply ihB
          intro d hd
          cases rest with
          | nil => cases hd
          | cons e r =>
            injection hd with hd
            subst hd
            unfold singleSpaced at hss
            rw [Bool.and_eq_true] at hss
            have hp := hss.1
            rw [Bool.not_eq_true', Bool.and_eq_false_iff] at hp
            rcases hp with h2 | h2
            · rw [hc] at h2; exact Bool.noConfusion h2
            · exact h2
        rw [hrest, hce]
      · rw [if_neg hc, ihA]
    · intro hhead
      unfold collapseWsGo
      cases hcw : isPyWs c with
      | true =>
        have := hhead c rfl
        rw [hcw] at this
        exact Bool.noConfusion this
      | false =>
        rw [if_neg (by simp [hcw]), ihA]

/-- Extraction is the identity when no separator occurs. -/
theorem extractPrimaryGo_id {l : List Char} :
    ∀ (seps : List Char), (∀ sep ∈ seps, l.contains sep = false) →
      extractPrimaryGo l seps = l := by
  intro seps
  induction seps with
  | nil => intro _; rfl
  | cons sep rest ih =>
    intro h
    unfold extractPrimaryGo
    rw [if_neg (by simpa using h sep (List.mem_cons_self _ _))]
    exact ih (fun x hx => h x (List.mem_cons_of_mem sep hx))

/-- On a non-empty input, `normalize` equals the edge trim of the
pattern-removal stage: the final `str.strip` removes nothing because the
edge trim already removed all edge whitespace. -/
theorem normalize_eq_trimmed (s : List Char) (hs : s.isEmpty = false) :
    normalize s = trimBoth isEdgeChar (removeLocationPatterns
      (extractPrimary (removeQuotes (collapseWs (removeAccents
        (pyStrip (s.map pyLower))))))) := by
  unfold normalize
  rw [if_neg (by rw [hs]; exact Bool.false_ne_true)]
  exact trimBoth_of_subclass whitespace_is_edge _

end LocationUtils

/-! ## Claim C6: amended -/

/-- Claim C6, amended as the counterexample forces: `normalize` is
idempotent on every input whose normalized form is stable under the
reductions a second pass could still apply — no two adjacent whitespace
characters (token removal can leave repeated internal spaces, as in the
counterexample), no separator character surviving in the primary
segment, and no location-pattern token or bare number re-exposed by the
first pass.  All three conditions are decidable on the normalized form;
on every input satisfying them, `normalize (normalize s) = normalize s`. -/
theorem C6_normalize_conditionally_idempotent (s : List Char)
    (h1 : LocationUtils.singleSpaced (LocationUtils.normalize s) = true)
    (h2 : ∀ sep ∈ LocationUtils.SEPARATORS,
      (LocationUtils.normalize s).contains sep = false)
    (h3 : LocationUtils.removeLocationPatterns (LocationUtils.normalize s) =
      LocationUtils.normalize s) :
    LocationUtils.normalize (LocationUtils.normalize s) =
      LocationUtils.normalize s := by
  open LocationUtils in
  by_cases hte : (normalize s).isEmpty = true
  · rw [List.isEmpty_iff.mp hte]
    rfl
  · have hse : s.isEmpty = false := by
      cases hsd : s.isEmpty with
      | false => rfl
      | true =>
        exfalso
        apply hte
        unfold LocationUtils.normalize
        rw [if_pos hsd]
        rfl
    have hrep := LocationUtils.normalize_eq_trimmed s hse
    -- invariants of the normalized form
    have hlow : ∀ c ∈ normalize s, pyLower c = c := by
      intro c hc
      rcases LocationUtils.mem_normalize hc with ⟨c0, _, rfl⟩ | rfl
      · exact LocationUtils.pyLower_idem c0
      · decide
    have hstage4 : ∀ c ∈ normalize s,
        c ∈ removeQuotes (collapseWs (removeAccents
          (pyStrip (s.map pyLower)))) := by
      intro c hc
      rw [hrep] at hc
      exact LocationUtils.mem_extractPrimaryGo SEPARATORS
        (LocationUtils.mem_removeLocationPatterns
          (LocationUtils.mem_trimBoth hc))
    have hws : ∀ c ∈ normalize s, isPyWs c = true → c = ' ' := by
      intro c hc hcw
      exact LocationUtils.collapseWsGo_ws_is_space _ _
        (List.mem_filter.mp (hstage4 c hc)).1 hcw
    have hnq : ∀ c ∈ normalize s,
        (!(c == LocationUtils.dquote || c == LocationUtils.squote)) = true :=
      fun c hc => (List.mem_filter.mp (hstage4 c hc)).2
    have hnm : ∀ c ∈ normalize s, (!isCombiningMark c) = true := by
      intro c hc
      rcases LocationUtils.mem_collapseWsGo _ _
          (List.mem_filter.mp (hstage4 c hc)).1 with h4 | h4
      · exact (List.mem_filter.mp h4).2
      · rw [h4]; decide
    have hhead : ∀ c, (normalize s).head? = some c → isEdgeChar c = false := by
      intro c hc
      rw [hrep] at hc
      exact LocationUtils.trimBoth_head?_false hc
    have hrevhead : ∀ c, (normalize s).reverse.head? = some c →
        isEdgeChar c = false := by
      intro c hc
      rw [hrep] at hc
      exact LocationUtils.trimBoth_revhead?_false hc
    have hheadws : ∀ c, (normalize s).head? = some c → isPyWs c = false := by
      intro c hc
      cases hw : isPyWs c with
      | false => rfl
      | true =>
        have := hhead c hc
        rw [LocationUtils.whitespace_is_edge c hw] at this
        exact Bool.noConfusion this
    have hrevheadws : ∀ c, (normalize s).reverse.head? = some c →
        isPyWs c = false := by
      intro c hc
      cases hw : isPyWs c with
      | false => rfl
      | true =>
        have := hrevhead c hc
        rw [LocationUtils.whitespace_is_edge c hw] at this
        exact Bool.noConfusion this
    -- the identity of every stage of the second pass
    have e1 : (normalize s).map pyLower = normalize s := map_id_of_mem hlow
    have e2 : pyStrip (normalize s) = normalize s :=
      LocationUtils.trimBoth_eq_self hheadws hrevheadws
    have e3 : removeAccents (normalize s) = normalize s :=
      List.filter_eq_self.mpr hnm
    have e4 : collapseWs (normalize s) = normalize s :=
      (LocationUtils.collapseWsGo_id (normalize s) hws h1).1
    have e5 : removeQuotes (normalize s) = normalize s :=
      List.filter_eq_self.mpr hnq
    have e6 : extractPrimary (normalize s) = normalize s :=
      LocationUtils.extractPrimaryGo_id SEPARATORS h2
    have e8 : trimEdges (normalize s) = normalize s :=
      LocationUtils.trimBoth_eq_self hhead hrevhead
    conv_lhs => rw [LocationUtils.normalize]
    rw [if_neg hte]
    dsimp only
    rw [e1, e2, e3, e4, e5, e6, h3, e8, e2]

/-- Closed witness for the amended C6: "Sangotedo, Ajah" normalizes to
"sangotedo", which satisfies all three stability conditions, and a
second pass fixes it. -/
theorem C6_normalize_conditionally_idempotent_witness :
    LocationUtils.normalize (LocationUtils.normalize "Sangotedo, Ajah".data) =
      LocationUtils.normalize "Sangotedo, Ajah".data :=
  C6_normalize_conditionally_idempotent "Sangotedo, Ajah".data
    (by decide) (by decide) (by decide)

/-! ## Claim C7: amended -/

namespace LocationUtils

/-- A fold whose step fixes the accumulator fixes the fold. -/
theorem foldl_fixed {α β : Type} {f : β → α → β} {b : β}
    (h : ∀ a, f b a = b) : ∀ l : List α, l.foldl f b = b
  | [] => rfl
  | a :: l => by rw [List.foldl_cons, h a]; exact foldl_fixed h l

theorem cpl_self : ∀ l : List Char, cpl l l = l.length
  | [] => rfl
  | c :: l => by simp [cpl, cpl_self l]

theorem cpl_le_left : ∀ (a b : List Char), cpl a b ≤ a.length
  | [], _ => Nat.zero_le _
  | _ :: _, [] => Nat.zero_le _
  | a :: as, b :: bs => by
    unfold cpl
    by_cases h : (a == b) = true
    · rw [if_pos h]
      exact Nat.succ_le_succ (cpl_le_left as bs)
    · rw [if_neg h]
      exact Nat.zero_le _

/-- On a string matched against itself, `find_longest_match` returns the
whole string at position (0, 0). -/
theorem flm_self {l : List Char} (h : l ≠ []) : flm l l = (0, 0, l.length) := by
  have hn : 0 < l.length := List.length_pos.mpr h
  obtain ⟨m, hm⟩ : ∃ m, l.length = m + 1 :=
    ⟨l.length - 1, (Nat.succ_pred_eq_of_pos hn).symm⟩
  unfold flm
  rw [hm, List.range_succ_eq_map, List.foldl_cons]
  have hstepfix : ∀ (i : Nat),
      (fun (best : Nat × Nat × Nat) (j : Nat) =>
        let k := cpl (l.drop i) (l.drop j)
        if best.2.2 < k then (i, j, k) else best) =
      (fun best j =>
        if best.2.2 < cpl (l.drop i) (l.drop j) then
          (i, j, cpl (l.drop i) (l.drop j))
        else best) := fun i => rfl
  have hinner_fix : ∀ (i : Nat) (js : List Nat),
      js.foldl (fun (best : Nat × Nat × Nat) (j : Nat) =>
        let k := cpl (l.drop i) (l.drop j)
        if best.2.2 < k then (i, j, k) else best) (0, 0, m + 1) =
      (0, 0, m + 1) := by
    intro i js
    apply foldl_fixed
    intro j
    dsimp only
    rw [if_neg]
    intro hlt
    have hle : cpl (l.drop i) (l.drop j) ≤ l.length :=
      le_trans (cpl_le_left _ _) (by rw [List.length_drop]; omega)
    rw [hm] at hle
    omega
  have hfirst :
      (0 :: (List.range m).map Nat.succ).foldl
        (fun (best : Nat × Nat × Nat) (j : Nat) =>
          let k := cpl (l.drop 0) (l.drop j)
          if best.2.2 < k then (0, j, k) else best) (0, 0, 0) =
      (0, 0, m + 1) := by
    rw [List.foldl_cons]
    have hcpl : cpl (l.drop 0) (l.drop 0) = m + 1 := by
      rw [List.drop_zero, cpl_self, hm]
    have hstep1 : (let k := cpl (l.drop 0) (l.drop 0)
        if (0, 0, 0).2.2 < k then ((0 : Nat), (0 : Nat), k)
        else ((0 : Nat), (0 : Nat), (0 : Nat))) = (0, 0, m + 1) := by
      dsimp only
      rw [hcpl, if_pos (by omega)]
    rw [hstep1]
    exact hinner_fix 0 _
  rw [hfirst]
  apply foldl_fixed
  intro i
  exact hinner_fix i _

theorem matchSumF_nilnil : ∀ fuel : Nat, matchSumF fuel [] [] = 0
  | 0 => rfl
  | _ + 1 => rfl

theorem matchSumF_succ (fuel : Nat) (a b : List Char) :
    matchSumF (fuel + 1) a b =
      (let r := flm a b
      if r.2.2 == 0 then 0
      else
        matchSumF fuel (a.take r.1) (b.take r.2.1) + r.2.2 +
          matchSumF fuel (a.drop (r.1 + r.2.2)) (b.drop (r.2.1 + r.2.2))) :=
  rfl

theorem matchSum_self {l : List Char} (h : l ≠ []) :
    matchSum l l = l.length := by
  have hn : 0 < l.length := List.length_pos.mpr h
  unfold matchSum
  rw [matchSumF_succ, flm_self h]
  dsimp only
  rw [if_neg (by simpa using Nat.pos_iff_ne_zero.mp hn)]
  simp [matchSumF_nilnil]

theorem smRatio_self {l : List Char} (h : l ≠ []) : smRatio l l = 1 := by
  have hn : 0 < l.length := List.length_pos.mpr h
  unfold smRatio
  rw [if_neg (by simpa using (by omega : l.length + l.length ≠ 0)),
    matchSum_self h]
  have hcast : ((l.length + l.length : Nat) : ℚ) = 2 * (l.length : ℚ) := by
    push_cast
    ring
  rw [hcast]
  apply div_self
  have hne : (l.length : ℚ) ≠ 0 := Nat.cast_ne_zero.mpr (by omega)
  exact mul_ne_zero two_ne_zero hne

theorem isPrefixOf_self : ∀ l : List Char, l.isPrefixOf l = true
  | [] => rfl
  | c :: t => by simp [List.isPrefixOf, isPrefixOf_self t]

theorem isSubstring_self (l : List Char) : isSubstring l l = true := by
  unfold isSubstring
  rw [isPrefixOf_self]
  cases l <;> rfl

theorem interCard_self (t : List (List Char)) : interCard t t = t.length := by
  unfold interCard
  rw [List.filter_eq_self.mpr]
  intro x hx
  exact List.elem_iff.mpr hx

end LocationUtils

/-- Claim C7, amended as the counterexample forces: self-similarity
holds on inputs whose normalized form is non-empty —
`similarity(a, a) = 1.0` exactly — while the general symmetry clause and
the unconditional self-similarity clause are dropped (for a bare-number
input the normalized form is empty and the score is 0, and the
order-dependent `SequenceMatcher` base ratio breaks symmetry). -/
theorem C7_similarity_self_on_nonempty_normal_form (a : List Char)
    (h : LocationUtils.normalize a ≠ []) :
    LocationUtils.similarity a a = 1 := by
  open LocationUtils in
  have hie : (normalize a).isEmpty = false := by
    cases hv : (normalize a).isEmpty with
    | false => rfl
    | true => exact absurd (List.isEmpty_iff.mp hv) h
  unfold LocationUtils.similarity
  rw [if_neg (by simp [hie])]
  dsimp only
  rw [LocationUtils.smRatio_self h]
  have hsub : (isSubstring (normalize a) (normalize a) ||
      isSubstring (normalize a) (normalize a)) = true := by
    rw [LocationUtils.isSubstring_self]
    rfl
  have hmax1 : pyMax 1 (9 / 10) = 1 := by
    unfold pyMax
    rw [if_neg (by norm_num)]
  rw [if_pos hsub, hmax1]
  by_cases htok : (tokenSet (splitWs (normalize a))).isEmpty = true
  · rw [if_neg (by simp [htok])]
  · rw [if_pos (by simp [htok])]
    have hlen : (tokenSet (splitWs (normalize a))).length ≠ 0 := by
      intro h0
      exact htok (by
        rw [List.isEmpty_iff]
        exact List.length_eq_zero.mp h0)
    rw [LocationUtils.interCard_self]
    have hminself : pyMinNat (tokenSet (splitWs (normalize a))).length
        (tokenSet (splitWs (normalize a))).length =
        (tokenSet (splitWs (normalize a))).length := by
      unfold pyMinNat
      rw [if_neg (by omega)]
    rw [hminself]
    have hq : ((tokenSet (splitWs (normalize a))).length : ℚ) /
        ((tokenSet (splitWs (normalize a))).length : ℚ) = 1 :=
      div_self (Nat.cast_ne_zero.mpr hlen)
    rw [hq]
    unfold pyMax
    rw [if_neg (by norm_num)]

/-- Closed witness for the amended C7: "Lekki" has the non-empty
normalized form "lekki" and its self-similarity is exactly 1. -/
theorem C7_similarity_self_on_nonempty_normal_form_witness :
    LocationUtils.similarity "Lekki".data "Lekki".data = 1 :=
  C7_similarity_self_on_nonempty_normal_form "Lekki".data (by decide)

end ExpertListing
